import Mathlib

/-!
# walutomat_rates_api: signed exchange-rate fetching

A shallow embedding of `main.go`: `signRequest`, `getExchangeRate` and
`obtainExchangeRates`.

Go functions returning `(value, error)` are embedded as functions returning a
pair whose second component is `Option Error` (`none` is the nil error); a
pointer result that is nil on error is embedded with `Except`.  The effects of
the program (the clock, the network, standard output) are threaded explicitly
as a world state `σ`.  Functions of the Go standard library that the program
calls (hashing, RSA signing, time formatting and parsing, URL parsing, JSON
decoding) are not part of the repository; they are the fields of `Lib`.  For
the statements about what a response body decodes to, the JSON decoder, the
float parser and the RFC3339 time parser of the library are modelled
(`jsonUnmarshal`, `ParseFloat`, `timeParse`) and put in place of the
corresponding fields by `withDecoders`.
-/

namespace Walutomat

/-! ## Data model -/

/-- A Go `error` value, identified by its message. -/
structure Error where
  msg : String
deriving DecidableEq, Repr

/-- A `time.Time` value: an instant, as seconds and nanoseconds since
January 1 of year 1, 00:00:00 UTC, with the zone offset (seconds east of UTC)
it is presented in.  The zero value is the zero `time.Time`. -/
structure Time where
  sec : Int
  nsec : Nat
  offset : Int
deriving DecidableEq, Repr

/-- A `float64`, as its 64-bit IEEE-754 pattern.  Pattern 0 is `+0`. -/
structure Float64 where
  bits : Nat
deriving DecidableEq, Repr

/-- An `rsa.PrivateKey`. -/
structure RSAPrivateKey where
  N : Nat
  E : Nat
  D : Nat
  Primes : List Nat
deriving DecidableEq, Repr

/-- A `crypto.PrivateKey` (an empty interface) by dynamic type: a
`*rsa.PrivateKey`, or a value of any other type, named by `typeName`. -/
inductive PrivateKey where
  | rsa (key : RSAPrivateKey)
  | other (typeName : String)
deriving DecidableEq, Repr

/-- The constant `apiKey`, `main.go` line 19. -/
def apiKey : String := ""

/-- The constant `urlBase`, `main.go` line 20. -/
def urlBase : String := "https://api.walutomat.pl"

/-- The constant `endpoint`, `main.go` line 21. -/
def endpoint : String := "/api/v2.0.0/direct_fx/rates?currencyPair="

/-- The layout constant `time.RFC3339`. -/
def RFC3339 : String := "2006-01-02T15:04:05Z07:00"

/-- The hash identifier `crypto.SHA256`. -/
def cryptoSHA256 : Nat := 5

/-- The struct `CurrencyRate`, `main.go` lines 24-29. -/
structure CurrencyRate where
  Timestamp : Time
  CurrencyPair : String
  BuyRate : Float64
  SellRate : Float64
deriving DecidableEq, Repr

/-- The zero value `CurrencyRate{}`. -/
def CurrencyRate.zero : CurrencyRate :=
  { Timestamp := ⟨0, 0, 0⟩, CurrencyPair := "", BuyRate := ⟨0⟩, SellRate := ⟨0⟩ }

/-- The anonymous struct of the `Result` field of `Response`, `main.go`
lines 82-87 (JSON keys `ts`, `currencyPair`, `buyRate,string`,
`sellRate,string`). -/
structure ResponseResult where
  Ts : String
  CurrencyPair : String
  BuyRate : Float64
  SellRate : Float64
deriving DecidableEq, Repr

/-- The struct `Response`, `main.go` lines 80-88 (JSON keys `success`,
`result`). -/
structure Response where
  Success : Bool
  Result : ResponseResult
deriving DecidableEq, Repr

/-- The header of a request: the values set so far, by name. -/
abbrev Header := List (String × String)

/-- The method `Header.Set`: replaces the value stored under `key`, or adds
it.  (The library canonicalises names the same way on every access; the three
names the program uses stay distinct.) -/
def Header.Set (h : Header) (key value : String) : Header :=
  (h.filter (fun kv => kv.1 != key)) ++ [(key, value)]

/-- The method `Header.Get`: the value stored under `key`, if any. -/
def Header.Get (h : Header) (key : String) : Option String :=
  (h.find? (fun kv => kv.1 == key)).map Prod.snd

/-- An `http.Request` as far as the program determines it. -/
structure Request where
  Method : String
  URL : String
  Header : Header
deriving DecidableEq, Repr

/-- The body stream of a response, by what reading it to the end gives: the
bytes read and the read error, if any. -/
structure Body where
  data : List UInt8
  err : Option Error
deriving DecidableEq, Repr

/-- An `http.Response` as far as the program can observe it. -/
structure HttpResponse where
  StatusCode : Nat
  Body : Body
deriving DecidableEq, Repr

/-- The function `io.ReadAll` on a response body. -/
def ReadAll (b : Body) : List UInt8 × Option Error := (b.data, b.err)

/-- The bytes of a Go string, `[]byte(s)`. -/
def bytesOf (s : String) : List UInt8 := s.toUTF8.data.toList

/-! ## Library functions the program calls -/

/-- The standard-library functions used by `main.go`, which are outside the
repository. -/
structure Lib where
  /-- The function `sha256.Sum256`. -/
  Sum256 : List UInt8 → List UInt8
  /-- The function `rsa.SignPKCS1v15` with a nil random source: key, hash
  identifier, digest. -/
  SignPKCS1v15 : RSAPrivateKey → Nat → List UInt8 → List UInt8 × Option Error
  /-- The method `Time.UTC`. -/
  UTC : Time → Time
  /-- The method `Time.Format`: time, layout. -/
  Format : Time → String → String
  /-- The function `time.Parse`: layout, value. -/
  Parse : String → String → Time × Option Error
  /-- The error of `url.Parse` on a raw URL, if any (the only way
  `http.NewRequest` fails for the method GET and a nil body). -/
  ParseURLError : String → Option Error
  /-- The function `json.Unmarshal` into a zero `Response`: the decoded
  struct and the error. -/
  Unmarshal : List UInt8 → Response × Option Error

/-- The effects the program performs on its surroundings: reading the clock
(`time.Now`), one HTTP round trip (`client.Do`) and printing a diagnostic
(`fmt.Println` of a label and an error). -/
structure Env (σ : Type) where
  Now : σ → Time × σ
  Do : Request → σ → Except Error HttpResponse × σ
  Println : String → Error → σ → σ

/-! ## base64 -/

/-- The alphabet of `base64.StdEncoding`. -/
def encodeStd : List Char :=
  "ABCDEFGHIJKLMNOPQRSTUVWXYZabcdefghijklmnopqrstuvwxyz0123456789+/".data

/-- The character for a 6-bit value. -/
def b64Char (i : Nat) : Char := encodeStd.getD (i % 64) 'A'

/-- Modelled from the spec: standard base64 with padding (the library function
`base64.StdEncoding.EncodeToString` is outside the repository).  Every three
bytes become four characters; a final group of one or two bytes is padded with
`=`. -/
def encodeChars : List UInt8 → List Char
  | [] => []
  | [a] =>
    let n := a.toNat * 65536
    [b64Char (n / 262144), b64Char (n / 4096), '=', '=']
  | [a, b] =>
    let n := a.toNat * 65536 + b.toNat * 256
    [b64Char (n / 262144), b64Char (n / 4096), b64Char (n / 64), '=']
  | a :: b :: c :: rest =>
    let n := a.toNat * 65536 + b.toNat * 256 + c.toNat
    b64Char (n / 262144) :: b64Char (n / 4096) :: b64Char (n / 64) :: b64Char n ::
      encodeChars rest

/-- Modelled from the spec: `base64.StdEncoding.EncodeToString`, see
`encodeChars`. -/
def EncodeToString (src : List UInt8) : String := String.mk (encodeChars src)

/-! ## signRequest -/

/-- The function `signRequest`, `main.go` lines 113-127. -/
def signRequest (lib : Lib) (timestamp endpoint body : String) (privateKey : PrivateKey) :
    String × Option Error :=
  let signatureContent := timestamp ++ endpoint ++ body
  let hashed := lib.Sum256 (bytesOf signatureContent)
  match privateKey with
  | PrivateKey.rsa key =>
    match lib.SignPKCS1v15 key cryptoSHA256 hashed with
    | (_, some err) => ("", some err)
    | (signature, none) => (EncodeToString signature, none)
  | PrivateKey.other _ => ("", some ⟨"unsupported key type"⟩)

/-! ## getExchangeRate -/

/-- The function `http.NewRequest` with a nil body: fails when the URL does
not parse, otherwise yields a request with that method and URL and an empty
header. -/
def NewRequest (lib : Lib) (method url : String) : Except Error Request :=
  match lib.ParseURLError url with
  | some err => Except.error err
  | none => Except.ok { Method := method, URL := url, Header := [] }

/-- The function `getExchangeRate`, `main.go` lines 46-111. -/
def getExchangeRate {σ : Type} (lib : Lib) (env : Env σ) (pairName : String)
    (privateKey : RSAPrivateKey) (w : σ) : (CurrencyRate × Option Error) × σ :=
  let now := (env.Now w).1
  let w := (env.Now w).2
  let timestamp := lib.Format (lib.UTC now) RFC3339
  match signRequest lib timestamp (endpoint ++ pairName) "" (PrivateKey.rsa privateKey) with
  | (_, some err) => ((CurrencyRate.zero, some err), env.Println "Error signing request:" err w)
  | (signature, none) =>
    match NewRequest lib "GET" (urlBase ++ endpoint ++ pairName) with
    | Except.error err =>
      ((CurrencyRate.zero, some err), env.Println "Error creating request:" err w)
    | Except.ok req =>
      let req := { req with Header := req.Header.Set "X-API-Key" apiKey }
      let req := { req with Header := req.Header.Set "X-API-Signature" signature }
      let req := { req with Header := req.Header.Set "X-API-Timestamp" timestamp }
      match env.Do req w with
      | (Except.error err, w) =>
        ((CurrencyRate.zero, some err), env.Println "Error executing request:" err w)
      | (Except.ok resp, w) =>
        match ReadAll resp.Body with
        | (_, some err) =>
          ((CurrencyRate.zero, some err), env.Println "Error reading response:" err w)
        | (body, none) =>
          match lib.Unmarshal body with
          | (_, some err) =>
            ((CurrencyRate.zero, some err), env.Println "Error unmarshalling JSON:" err w)
          | (respDecoded, none) =>
            match lib.Parse RFC3339 respDecoded.Result.Ts with
            | (_, some err) =>
              ((CurrencyRate.zero, some err), env.Println "Error parsing timestamp:" err w)
            | (parsedTime, none) =>
              let rate : CurrencyRate :=
                { Timestamp := parsedTime
                  CurrencyPair := respDecoded.Result.CurrencyPair
                  BuyRate := respDecoded.Result.BuyRate
                  SellRate := respDecoded.Result.SellRate }
              ((rate, none), w)

/-! ## obtainExchangeRates -/

/-- The pair list of `obtainExchangeRates`, `main.go` line 32. -/
def pairs : List String := ["USDPLN", "GBPPLN", "CHFPLN", "EURPLN"]

/-- The loop of `obtainExchangeRates`, `main.go` lines 35-43, over the pairs
still to visit, with the `results` slice built so far.  A nil result slice is
`none`. -/
def rangePairs {σ : Type}
    (fetch : String → RSAPrivateKey → σ → (CurrencyRate × Option Error) × σ)
    (privateKey : RSAPrivateKey) :
    List String → List CurrencyRate → σ → (Option (List CurrencyRate) × Option Error) × σ
  | [], results, w => ((some results, none), w)
  | pairName :: rest, results, w =>
    match fetch pairName privateKey w with
    | ((_, some err), w) => ((none, some err), w)
    | ((rate, none), w) => rangePairs fetch privateKey rest (results ++ [rate]) w

/-- The function `obtainExchangeRates`, `main.go` lines 31-44, with the per-pair fetch it
calls as a parameter. -/
def obtainExchangeRatesWith {σ : Type}
    (fetch : String → RSAPrivateKey → σ → (CurrencyRate × Option Error) × σ)
    (privateKey : RSAPrivateKey) (w : σ) :
    (Option (List CurrencyRate) × Option Error) × σ :=
  rangePairs fetch privateKey pairs [] w

/-- The function `obtainExchangeRates`, `main.go` lines 31-44. -/
def obtainExchangeRates {σ : Type} (lib : Lib) (env : Env σ) (privateKey : RSAPrivateKey)
    (w : σ) : (Option (List CurrencyRate) × Option Error) × σ :=
  obtainExchangeRatesWith (getExchangeRate lib env) privateKey w

/-! ## Test doubles -/

/-- A test double for the per-pair fetch: it answers by the function `f` of
the pair name and the key, and appends the pair it was asked for to the list
of calls made so far. -/
def recordingFetch (f : String → RSAPrivateKey → CurrencyRate × Option Error) :
    String → RSAPrivateKey → List String → (CurrencyRate × Option Error) × List String :=
  fun pairName privateKey calls => (f pairName privateKey, calls ++ [pairName])

/-- A key for the examples. -/
def sampleKey : RSAPrivateKey := { N := 3233, E := 17, D := 2753, Primes := [61, 53] }

/-- A fetch that succeeds on every pair. -/
def fetchAlways : String → RSAPrivateKey → CurrencyRate × Option Error :=
  fun pairName _ =>
    ({ Timestamp := ⟨63839707200, 0, 0⟩, CurrencyPair := pairName,
       BuyRate := ⟨pairName.length⟩, SellRate := ⟨7⟩ }, none)

/-- A fetch that fails on CHFPLN and on EURPLN, with different errors, and
succeeds elsewhere. -/
def fetchFailing : String → RSAPrivateKey → CurrencyRate × Option Error :=
  fun pairName privateKey =>
    if pairName = "CHFPLN" then (CurrencyRate.zero, some ⟨"timeout"⟩)
    else if pairName = "EURPLN" then (CurrencyRate.zero, some ⟨"refused"⟩)
    else fetchAlways pairName privateKey

/-- A test double for the surroundings: the clock reads `now`, the transport
answers by the function `transport` of the request, and the state is the list
of the requests handed to the transport so far.  Diagnostics are dropped. -/
def recordingEnv (now : Time) (transport : Request → Except Error HttpResponse) :
    Env (List Request) where
  Now := fun sent => (now, sent)
  Do := fun req sent => (transport req, sent ++ [req])
  Println := fun _ _ sent => sent

/-- The request `getExchangeRate` hands to the transport, given the signature
and the timestamp: the request of `http.NewRequest` after the three
`Header.Set` calls of `main.go` lines 63-65. -/
def signedRequest (pairName signature timestamp : String) : Request :=
  { Method := "GET", URL := urlBase ++ endpoint ++ pairName,
    Header := [("X-API-Key", apiKey), ("X-API-Signature", signature),
               ("X-API-Timestamp", timestamp)] }

/-- The response body of the parsing example. -/
def bodyExample : String :=
  "\x7b\"success\":true,\"result\":\x7b\"ts\":\"2024-01-01T12:00:00Z\",\"currencyPair\":\"EURPLN\",\"buyRate\":\"4.3012\",\"sellRate\":\"4.3199\"\x7d\x7d"

/-- The body of the parsing example with `success` false. -/
def bodyNotSuccess : String :=
  "\x7b\"success\":false,\"result\":\x7b\"ts\":\"2024-01-01T12:00:00Z\",\"currencyPair\":\"EURPLN\",\"buyRate\":\"4.3012\",\"sellRate\":\"4.3199\"\x7d\x7d"

/-- The body of the parsing example with a malformed buy rate. -/
def bodyBadRate : String :=
  "\x7b\"success\":true,\"result\":\x7b\"ts\":\"2024-01-01T12:00:00Z\",\"currencyPair\":\"EURPLN\",\"buyRate\":\"abc\",\"sellRate\":\"4.3199\"\x7d\x7d"

/-- The body of the parsing example with a malformed timestamp. -/
def bodyBadTime : String :=
  "\x7b\"success\":true,\"result\":\x7b\"ts\":\"not-a-date\",\"currencyPair\":\"EURPLN\",\"buyRate\":\"4.3012\",\"sellRate\":\"4.3199\"\x7d\x7d"

/-- The struct the example bodies decode to, given the flag and the timestamp
text: the rates are the `float64` values nearest to 4.3012 and 4.3199. -/
def decodedExample (success : Bool) (ts : String) : Response :=
  { Success := success,
    Result := { Ts := ts, CurrencyPair := "EURPLN",
                BuyRate := ⟨0x4011346dc5d63886⟩, SellRate := ⟨0x40114793dd97f62b⟩ } }

/-- The zero value of `Response`. -/
def Response.zero : Response :=
  { Success := false, Result := { Ts := "", CurrencyPair := "", BuyRate := ⟨0⟩, SellRate := ⟨0⟩ } }

/-- A test double for the library.  The digest and the signature are
stand-ins that depend on their inputs; signing refuses a key without modulus;
the clock format knows the instant 2024-01-01T12:00:05Z only and the time
parser the text 2024-01-01T12:00:00Z only; the decoder knows the four example
bodies only, and rejects the one with the malformed rate. -/
def testLib : Lib where
  Sum256 := fun msg => [UInt8.ofNat msg.length, UInt8.ofNat (msg.map UInt8.toNat).sum]
  SignPKCS1v15 := fun key hash digest =>
    if key.N = 0 then ([], some ⟨"crypto/rsa: missing public modulus"⟩)
    else if hash ≠ cryptoSHA256 then ([], some ⟨"crypto/rsa: unsupported hash function"⟩)
    else (UInt8.ofNat key.D :: digest, none)
  UTC := fun t => { t with offset := 0 }
  Format := fun t _ =>
    if t.sec = 63839707205 ∧ t.offset = 0 then "2024-01-01T12:00:05Z"
    else "0001-01-01T00:00:00Z"
  Parse := fun _ value =>
    if value = "2024-01-01T12:00:00Z" then (⟨63839707200, 0, 0⟩, none)
    else (⟨0, 0, 0⟩, some ⟨"parsing time: cannot parse"⟩)
  ParseURLError := fun url =>
    if url.data.any (fun c => c.toNat < 32) then
      some ⟨"net/url: invalid control character in URL"⟩
    else none
  Unmarshal := fun data =>
    if data = bytesOf bodyExample then (decodedExample true "2024-01-01T12:00:00Z", none)
    else if data = bytesOf bodyNotSuccess then
      (decodedExample false "2024-01-01T12:00:00Z", none)
    else if data = bytesOf bodyBadTime then (decodedExample true "not-a-date", none)
    else if data = bytesOf bodyBadRate then
      (Response.zero, some ⟨"json: invalid use of ,string struct tag"⟩)
    else (Response.zero, some ⟨"unexpected end of JSON input"⟩)

/-- A key without modulus, which the test double refuses to sign with. -/
def brokenKey : RSAPrivateKey := { N := 0, E := 0, D := 0, Primes := [] }

/-- A clock reading: the instant 2024-01-01T12:00:05Z, presented at offset
+01:00. -/
def sampleNow : Time := { sec := 63839707205, nsec := 0, offset := 3600 }

/-- A transport that answers every request with the given status and body. -/
def answering (status : Nat) (body : String) : Request → Except Error HttpResponse :=
  fun _ => Except.ok { StatusCode := status, Body := { data := bytesOf body, err := none } }

/-- Two outcomes of the transport that leave the same state and are either the
same error or two responses with the same body; the status codes are free. -/
def sameUpToStatus {σ : Type} (a b : Except Error HttpResponse × σ) : Prop :=
  a.2 = b.2 ∧
  match a.1, b.1 with
  | Except.ok x, Except.ok y => x.Body = y.Body
  | Except.error e, Except.error e1 => e = e1
  | _, _ => False

/-- Two outcomes of the transport that leave the same state and are either the
same error or two responses that read alike and whose bodies decode with the
same error and to the same `Result`; the decoded `Success` flags are free. -/
def sameUpToSuccess {σ : Type} (lib : Lib) (a b : Except Error HttpResponse × σ) : Prop :=
  a.2 = b.2 ∧
  match a.1, b.1 with
  | Except.ok x, Except.ok y =>
    x.Body.err = y.Body.err ∧
    (lib.Unmarshal x.Body.data).2 = (lib.Unmarshal y.Body.data).2 ∧
    (lib.Unmarshal x.Body.data).1.Result = (lib.Unmarshal y.Body.data).1.Result
  | Except.error e, Except.error e1 => e = e1
  | _, _ => False

/-- The first failure among the four stages that follow the sending of the
request: the transport, the reading of the body, the JSON decoding and the
parsing of the decoded timestamp.  The status code plays no part. -/
def responseError (lib : Lib) : Except Error HttpResponse → Option Error
  | Except.error e => some e
  | Except.ok resp =>
    match resp.Body.err with
    | some e => some e
    | none =>
      match (lib.Unmarshal resp.Body.data).2 with
      | some e => some e
      | none => (lib.Parse RFC3339 (lib.Unmarshal resp.Body.data).1.Result.Ts).2

/-! ## The JSON decoding the program asks of the library

A model of `json.Unmarshal` into a zero `Response`, after the documented
behaviour of `encoding/json`: the text is checked and read as a JSON value,
and the value is stored into the struct by the names and options of its field
tags.  Bytes are natural numbers below 256. -/

/-- A JSON value as the library reads it; a number keeps its text and an
object its members in order. -/
inductive JValue where
  | null
  | bool (b : Bool)
  | number (literal : String)
  | string (s : String)
  | array (items : List JValue)
  | object (members : List (String × JValue))

/-- The replacement character U+FFFD. -/
def runeError : Char := Char.ofNat 0xFFFD

/-- The function `utf8.DecodeRune` on a non-empty input: the first rune and
the remaining bytes; an ill-formed sequence yields U+FFFD and consumes one
byte. -/
def decodeRune (b0 : Nat) (rest : List Nat) : Char × List Nat :=
  if b0 < 0x80 then (Char.ofNat b0, rest)
  else if 0xC2 ≤ b0 ∧ b0 ≤ 0xDF then
    match rest with
    | b1 :: r1 =>
      if 0x80 ≤ b1 ∧ b1 ≤ 0xBF then (Char.ofNat ((b0 - 0xC0) * 64 + (b1 - 0x80)), r1)
      else (runeError, rest)
    | [] => (runeError, rest)
  else if 0xE0 ≤ b0 ∧ b0 ≤ 0xEF then
    match rest with
    | b1 :: b2 :: r2 =>
      if (if b0 = 0xE0 then 0xA0 else 0x80) ≤ b1 ∧ b1 ≤ (if b0 = 0xED then 0x9F else 0xBF) ∧
          0x80 ≤ b2 ∧ b2 ≤ 0xBF then
        (Char.ofNat ((b0 - 0xE0) * 4096 + (b1 - 0x80) * 64 + (b2 - 0x80)), r2)
      else (runeError, rest)
    | _ => (runeError, rest)
  else if 0xF0 ≤ b0 ∧ b0 ≤ 0xF4 then
    match rest with
    | b1 :: b2 :: b3 :: r3 =>
      if (if b0 = 0xF0 then 0x90 else 0x80) ≤ b1 ∧ b1 ≤ (if b0 = 0xF4 then 0x8F else 0xBF) ∧
          0x80 ≤ b2 ∧ b2 ≤ 0xBF ∧ 0x80 ≤ b3 ∧ b3 ≤ 0xBF then
        (Char.ofNat ((b0 - 0xF0) * 262144 + (b1 - 0x80) * 4096 + (b2 - 0x80) * 64 + (b3 - 0x80)),
          r3)
      else (runeError, rest)
    | _ => (runeError, rest)
  else (runeError, rest)

/-- The value of a hexadecimal digit. -/
def hexVal (b : Nat) : Option Nat :=
  if 48 ≤ b ∧ b ≤ 57 then some (b - 48)
  else if 97 ≤ b ∧ b ≤ 102 then some (b - 87)
  else if 65 ≤ b ∧ b ≤ 70 then some (b - 55)
  else none

/-- Four hexadecimal digits as a 16-bit code. -/
def hex4 : List Nat → Option (Nat × List Nat)
  | a :: b :: c :: d :: rest =>
    match hexVal a, hexVal b, hexVal c, hexVal d with
    | some a, some b, some c, some d => some (a * 4096 + b * 256 + c * 16 + d, rest)
    | _, _, _, _ => none
  | _ => none

/-- An escape `\uXXXX` at the head of the input. -/
def getu4 : List Nat → Option (Nat × List Nat)
  | 92 :: 117 :: rest => hex4 rest
  | _ => none

/-- The rest of a JSON string after its opening quote: the unquoted text and
the input after the closing quote.  Escapes are resolved, a surrogate pair
becomes one rune, a lone surrogate and ill-formed UTF-8 become U+FFFD; a
control character or an unknown escape is a syntax error (`none`). -/
def scanString : Nat → List Nat → List Char → Option (String × List Nat)
  | 0, _, _ => none
  | _ + 1, [], _ => none
  | fuel + 1, b :: rest, acc =>
    if b = 34 then some (String.mk acc.reverse, rest)
    else if b = 92 then
      match rest with
      | [] => none
      | c :: rest1 =>
        if c = 34 ∨ c = 92 ∨ c = 47 then scanString fuel rest1 (Char.ofNat c :: acc)
        else if c = 98 then scanString fuel rest1 (Char.ofNat 8 :: acc)
        else if c = 102 then scanString fuel rest1 (Char.ofNat 12 :: acc)
        else if c = 110 then scanString fuel rest1 (Char.ofNat 10 :: acc)
        else if c = 114 then scanString fuel rest1 (Char.ofNat 13 :: acc)
        else if c = 116 then scanString fuel rest1 (Char.ofNat 9 :: acc)
        else if c = 117 then
          match hex4 rest1 with
          | none => none
          | some (r, rest2) =>
            if 0xD800 ≤ r ∧ r < 0xE000 then
              match getu4 rest2 with
              | some (r1, rest3) =>
                if r < 0xDC00 ∧ 0xDC00 ≤ r1 ∧ r1 < 0xE000 then
                  scanString fuel rest3
                    (Char.ofNat ((r - 0xD800) * 1024 + (r1 - 0xDC00) + 0x10000) :: acc)
                else scanString fuel rest2 (runeError :: acc)
              | none => scanString fuel rest2 (runeError :: acc)
            else scanString fuel rest2 (Char.ofNat r :: acc)
        else none
    else if b < 32 then none
    else
      scanString fuel (decodeRune b rest).2 ((decodeRune b rest).1 :: acc)

/-- The leading decimal digits of the input, and the rest. -/
def takeDigits : List Nat → List Nat × List Nat
  | [] => ([], [])
  | b :: rest =>
    if 48 ≤ b ∧ b ≤ 57 then ((b :: (takeDigits rest).1), (takeDigits rest).2)
    else ([], b :: rest)

/-- The digits, fraction and exponent of a JSON number after its optional
sign: the text read (after `sign`) and the rest. -/
def scanUnsigned (sign bs1 : List Nat) : Option (List Nat × List Nat) :=
  let intPart : Option (List Nat × List Nat) := match bs1 with
    | [] => none
    | b :: rest =>
      if b = 48 then some ([48], rest)
      else if 49 ≤ b ∧ b ≤ 57 then some (b :: (takeDigits rest).1, (takeDigits rest).2)
      else none
  match intPart with
  | none => none
  | some (ip, bs2) =>
    let frac : Option (List Nat × List Nat) := match bs2 with
      | [] => some ([], bs2)
      | p :: rest =>
        if p = 46 then
          (if (takeDigits rest).1 = [] then none
           else some (46 :: (takeDigits rest).1, (takeDigits rest).2))
        else some ([], bs2)
    match frac with
    | none => none
    | some (fp, bs3) =>
      let expo : Option (List Nat × List Nat) := match bs3 with
        | [] => some ([], bs3)
        | e :: rest =>
          if e = 101 ∨ e = 69 then
            let sg := match rest with
              | [] => []
              | s :: _ => if s = 43 ∨ s = 45 then [s] else []
            if (takeDigits (rest.drop sg.length)).1 = [] then none
            else some (e :: sg ++ (takeDigits (rest.drop sg.length)).1,
                       (takeDigits (rest.drop sg.length)).2)
          else some ([], bs3)
      match expo with
      | none => none
      | some (ep, bs4) => some (sign ++ ip ++ fp ++ ep, bs4)

/-- A JSON number at the head of the input: its text and the rest; `none`
when the input does not begin with a number. -/
def scanNumber (bs : List Nat) : Option (List Nat × List Nat) :=
  match bs with
  | [] => none
  | b0 :: rest0 =>
    if b0 = 45 then scanUnsigned [45] rest0
    else if 48 ≤ b0 ∧ b0 ≤ 57 then scanUnsigned [] bs
    else none

/-- Whether a text is wholly one number of the JSON grammar: a decimal number
with optional sign, fraction and exponent. -/
def isJSONNumber (s : String) : Bool :=
  match scanNumber (s.data.map Char.toNat) with
  | some (_, []) => true
  | _ => false

/-- The input after its leading JSON white space. -/
def skipSpace : List Nat → List Nat
  | [] => []
  | b :: rest => if b = 32 ∨ b = 9 ∨ b = 10 ∨ b = 13 then skipSpace rest else b :: rest

/-- The input after the given literal, when it begins with it. -/
def dropLiteral : List Nat → List Nat → Option (List Nat)
  | [], bs => some bs
  | _ :: _, [] => none
  | c :: cs, b :: bs => if c = b then dropLiteral cs bs else none

/-- The text of a list of ASCII bytes. -/
def asciiText (bs : List Nat) : String := String.mk (bs.map Char.ofNat)

mutual

/-- A JSON value at the head of the input (after white space), and the rest.
The second argument is the nesting depth, which the library bounds by
10000. -/
def parseValue : Nat → Nat → List Nat → Option (JValue × List Nat)
  | 0, _, _ => none
  | fuel + 1, depth, bs =>
    match skipSpace bs with
    | [] => none
    | b :: rest =>
      if b = 123 then
        if 10000 ≤ depth then none
        else match skipSpace rest with
          | 125 :: rest1 => some (JValue.object [], rest1)
          | rest1 => parseMembers fuel (depth + 1) rest1 []
      else if b = 91 then
        if 10000 ≤ depth then none
        else match skipSpace rest with
          | 93 :: rest1 => some (JValue.array [], rest1)
          | rest1 => parseItems fuel (depth + 1) rest1 []
      else if b = 34 then
        match scanString (rest.length + 1) rest [] with
        | some (s, rest1) => some (JValue.string s, rest1)
        | none => none
      else if b = 116 then (dropLiteral [114, 117, 101] rest).map (fun r => (JValue.bool true, r))
      else if b = 102 then
        (dropLiteral [97, 108, 115, 101] rest).map (fun r => (JValue.bool false, r))
      else if b = 110 then (dropLiteral [117, 108, 108] rest).map (fun r => (JValue.null, r))
      else
        match scanNumber (b :: rest) with
        | some (lit, rest1) => some (JValue.number (asciiText lit), rest1)
        | none => none

/-- The elements of an array after the opening bracket, up to and including
the closing bracket. -/
def parseItems : Nat → Nat → List Nat → List JValue → Option (JValue × List Nat)
  | 0, _, _, _ => none
  | fuel + 1, depth, bs, acc =>
    match parseValue fuel depth bs with
    | none => none
    | some (v, rest) =>
      match skipSpace rest with
      | 44 :: rest1 => parseItems fuel depth rest1 (acc ++ [v])
      | 93 :: rest1 => some (JValue.array (acc ++ [v]), rest1)
      | _ => none

/-- The members of an object after the opening brace, up to and including the
closing brace. -/
def parseMembers : Nat → Nat → List Nat → List (String × JValue) →
    Option (JValue × List Nat)
  | 0, _, _, _ => none
  | fuel + 1, depth, bs, acc =>
    match skipSpace bs with
    | 34 :: rest =>
      match scanString (rest.length + 1) rest [] with
      | none => none
      | some (key, rest1) =>
        match skipSpace rest1 with
        | 58 :: rest2 =>
          match parseValue fuel depth rest2 with
          | none => none
          | some (v, rest3) =>
            match skipSpace rest3 with
            | 44 :: rest4 => parseMembers fuel depth rest4 (acc ++ [(key, v)])
            | 125 :: rest4 => some (JValue.object (acc ++ [(key, v)]), rest4)
            | _ => none
        | _ => none
    | _ => none

end

/-- The JSON value a text denotes, when the whole text is one valid JSON value
between optional white space (`checkValid` followed by the reading of the
value). -/
def parseJSON (data : List Nat) : Option JValue :=
  match parseValue (2 * data.length + 2) 0 data with
  | some (v, rest) => if skipSpace rest = [] then some v else none
  | none => none

/-! ## The number parsing the decoder relies on

A model of `strconv.ParseFloat(s, 64)`: decimal and hexadecimal floating-point
text, optional underscores, infinities and NaN, rounded to the nearest
`float64` (ties to even).  Characters are their code points. -/

/-- The function `lower` of `strconv` (sets bit 5). -/
def lowerCode (c : Nat) : Nat := c ||| 32

/-- The number of binary digits of `n`, counted by dropping 64 digits at a
time and then one at a time; the first argument bounds the number of steps. -/
def bitsLoop : Nat → Nat → Nat
  | 0, _ => 0
  | fuel + 1, n =>
    if n = 0 then 0
    else if 2 ^ 64 ≤ n then bitsLoop fuel (n / 2 ^ 64) + 64
    else bitsLoop fuel (n / 2) + 1

/-- The number of binary digits of `n`. -/
def bitLength (n : Nat) : Nat := bitsLoop n n

/-- The nearest `float64` to the rational `num / den` with the given sign, and
whether it overflows to an infinity. -/
def roundFloat64 (neg : Bool) (num den : Nat) : Float64 × Bool :=
  let signBit := if neg then 2 ^ 63 else 0
  if num = 0 ∨ den = 0 then (⟨signBit⟩, false)
  else
    let l : Int := (bitLength num : Int) - (bitLength den : Int)
    let e2 : Int :=
      if 0 ≤ l then (if den * 2 ^ l.toNat ≤ num then l else l - 1)
      else (if den ≤ num * 2 ^ (-l).toNat then l else l - 1)
    let e : Int := if e2 < -1022 then -1022 else e2
    let shift : Int := e - 52
    let n := if 0 ≤ shift then num else num * 2 ^ (-shift).toNat
    let d := if 0 ≤ shift then den * 2 ^ shift.toNat else den
    let q0 := n / d
    let r := n % d
    let q1 := if d < 2 * r ∨ (2 * r = d ∧ q0 % 2 = 1) then q0 + 1 else q0
    let q := if q1 = 2 ^ 53 then 2 ^ 52 else q1
    let e1 : Int := if q1 = 2 ^ 53 then e + 1 else e
    if q < 2 ^ 52 then (⟨signBit + q⟩, false)
    else if 1023 < e1 then (⟨signBit + 2047 * 2 ^ 52⟩, true)
    else (⟨signBit + (e1 + 1023).toNat * 2 ^ 52 + (q - 2 ^ 52)⟩, false)

/-- The state of the digit loop of `readFloat`. -/
structure Digits where
  sawdot : Bool
  sawdigits : Bool
  underscores : Bool
  nd : Nat
  dp : Int
  mantissa : Nat

/-- The digit loop of `readFloat`: digits, at most one point and underscores,
up to the first other character.  Leading zeros are not counted. -/
def readDigits (base : Nat) : List Nat → Digits → Digits × List Nat
  | [], st => (st, [])
  | c :: rest, st =>
    if c = 95 then readDigits base rest { st with underscores := true }
    else if c = 46 then
      if st.sawdot then (st, c :: rest)
      else readDigits base rest { st with sawdot := true, dp := st.nd }
    else if 48 ≤ c ∧ c ≤ 57 then
      if c = 48 ∧ st.nd = 0 then
        readDigits base rest { st with sawdigits := true, dp := st.dp - 1 }
      else
        readDigits base rest
          { st with sawdigits := true, nd := st.nd + 1, mantissa := st.mantissa * base + (c - 48) }
    else if base = 16 ∧ 97 ≤ lowerCode c ∧ lowerCode c ≤ 102 then
      readDigits base rest
        { st with sawdigits := true, nd := st.nd + 1,
                  mantissa := st.mantissa * 16 + (lowerCode c - 97 + 10) }
    else (st, c :: rest)

/-- The exponent digits of `readFloat`: digits and underscores, accumulated
while the value is below 10000. -/
def readExponent : List Nat → Nat → Bool → Nat × Bool × List Nat
  | [], e, u => (e, u, [])
  | c :: rest, e, u =>
    if c = 95 then readExponent rest e true
    else if 48 ≤ c ∧ c ≤ 57 then readExponent rest (if e < 10000 then e * 10 + (c - 48) else e) u
    else (e, u, c :: rest)

/-- The scan of `underscoreOK` after sign and base prefix: `saw` is 0 at the
start, 1 after a digit, 2 after an underscore, 3 after anything else. -/
def underscoreScan (hex : Bool) : List Nat → Nat → Bool
  | [], saw => saw ≠ 2
  | c :: rest, saw =>
    if (48 ≤ c ∧ c ≤ 57) ∨ (hex ∧ 97 ≤ lowerCode c ∧ lowerCode c ≤ 102) then
      underscoreScan hex rest 1
    else if c = 95 then (if saw ≠ 1 then false else underscoreScan hex rest 2)
    else if saw = 2 then false
    else underscoreScan hex rest 3

/-- The function `underscoreOK`: underscores only between digits or between a
base prefix and a digit. -/
def underscoreOK (s : List Nat) : Bool :=
  let s1 := match s with
    | c :: rest => if c = 45 ∨ c = 43 then rest else s
    | [] => s
  match s1 with
  | c0 :: c1 :: rest =>
    if c0 = 48 ∧ (lowerCode c1 = 98 ∨ lowerCode c1 = 111 ∨ lowerCode c1 = 120) then
      underscoreScan (lowerCode c1 = 120) rest 1
    else underscoreScan false s1 0
  | _ => underscoreScan false s1 0

/-- The number a floating-point text denotes, as read by `readFloat`: sign,
numerator and denominator, and the characters left over; `none` when the text
does not begin with a number. -/
def readFloat (s : List Nat) : Option (Bool × Nat × Nat × List Nat) :=
  match s with
  | [] => none
  | c0 :: _ =>
    let neg := c0 = 45
    let s1 := if c0 = 43 ∨ c0 = 45 then s.drop 1 else s
    let hex : Bool := match s1 with
      | a :: b :: _ :: _ => a = 48 ∧ lowerCode b = 120
      | _ => false
    let base := if hex then 16 else 10
    let s2 := if hex then s1.drop 2 else s1
    let st0 : Digits :=
      { sawdot := false, sawdigits := false, underscores := false, nd := 0, dp := 0,
        mantissa := 0 }
    let st := (readDigits base s2 st0).1
    let s3 := (readDigits base s2 st0).2
    if ¬ st.sawdigits then none
    else
      let dp0 : Int := if st.sawdot then st.dp else st.nd
      let dp1 : Int := if hex then dp0 * 4 else dp0
      let ndMant : Int := if hex then st.nd * 4 else st.nd
      let expChar := if hex then 112 else 101
      let tail : Option (Int × Bool × List Nat) :=
        match s3 with
        | c :: rest =>
          if lowerCode c = expChar then
            match rest with
            | [] => none
            | sg :: rest1 =>
              let esign : Int := if sg = 45 then -1 else 1
              let rest2 := if sg = 43 ∨ sg = 45 then rest1 else rest
              match rest2 with
              | d :: _ =>
                if 48 ≤ d ∧ d ≤ 57 then
                  some (dp1 + (readExponent rest2 0 st.underscores).1 * esign,
                        (readExponent rest2 0 st.underscores).2.1,
                        (readExponent rest2 0 st.underscores).2.2)
                else none
              | [] => none
          else if hex then none
          else some (dp1, st.underscores, s3)
        | [] => if hex then none else some (dp1, st.underscores, s3)
      match tail with
      | none => none
      | some (dp2, underscores, s4) =>
        let consumed := s.take (s.length - s4.length)
        if underscores ∧ ¬ underscoreOK consumed then none
        else
          let ex : Int := dp2 - ndMant
          let pw := if hex then 2 else 10
          if 0 ≤ ex then some (neg, st.mantissa * pw ^ ex.toNat, 1, s4)
          else some (neg, st.mantissa, pw ^ (-ex).toNat, s4)

/-- The function `commonPrefixLenIgnoreCase` of `strconv`. -/
def commonLen : List Nat → List Nat → Nat
  | c :: s, p :: pattern =>
    if (if 65 ≤ c ∧ c ≤ 90 then c + 32 else c) = p then commonLen s pattern + 1 else 0
  | _, _ => 0

/-- The function `special` of `strconv`: an infinity or NaN at the head of the
text, as bits and number of characters. -/
def special (s : List Nat) : Option (Float64 × Nat) :=
  let infinity : List Nat := [105, 110, 102, 105, 110, 105, 116, 121]
  match s with
  | [] => none
  | c :: rest =>
    if c = 43 ∨ c = 45 ∨ c = 105 ∨ c = 73 then
      let signed := c = 43 ∨ c = 45
      let body := if signed then rest else s
      let n0 := commonLen body infinity
      let n := if 3 < n0 ∧ n0 < 8 then 3 else n0
      if n = 3 ∨ n = 8 then
        some (⟨(if c = 45 then 2 ^ 63 else 0) + 2047 * 2 ^ 52⟩, (if signed then 1 else 0) + n)
      else none
    else if c = 110 ∨ c = 78 then
      if commonLen s [110, 97, 110] = 3 then some (⟨0x7FF8000000000001⟩, 3) else none
    else none

/-- A string in double quotes, with quotes and backslashes escaped (the `%q`
form of printable text). -/
def goQuote (s : String) : String :=
  "\"" ++ String.mk (s.data.flatMap (fun c =>
    if c.toNat = 34 ∨ c.toNat = 92 then [Char.ofNat 92, c] else [c])) ++ "\""

/-- The function `strconv.ParseFloat(s, 64)`: the nearest `float64` and the
error, a syntax error when `s` is not wholly a number and a range error when
the number rounds to an infinity. -/
def ParseFloat (s : String) : Float64 × Option Error :=
  let cs := s.data.map Char.toNat
  let syntaxErr : Error := ⟨"strconv.ParseFloat: parsing " ++ goQuote s ++ ": invalid syntax"⟩
  let rangeErr : Error := ⟨"strconv.ParseFloat: parsing " ++ goQuote s ++ ": value out of range"⟩
  match special cs with
  | some (f, n) => if n = cs.length then (f, none) else (⟨0⟩, some syntaxErr)
  | none =>
    match readFloat cs with
    | none => (⟨0⟩, some syntaxErr)
    | some (neg, num, den, rest) =>
      if rest ≠ [] then (⟨0⟩, some syntaxErr)
      else if (roundFloat64 neg num den).2 then ((roundFloat64 neg num den).1, some rangeErr)
      else ((roundFloat64 neg num den).1, none)

/-! ## Storing a JSON value into `Response` -/

/-- The folded form of a name, by which the decoder matches a key to a field
when no field has exactly that name: ASCII letters in upper case, and the two
characters that fold onto ASCII letters (long s, Kelvin sign). -/
def foldName (s : String) : List Nat :=
  s.data.map (fun c =>
    if 97 ≤ c.toNat ∧ c.toNat ≤ 122 then c.toNat - 32
    else if c.toNat = 0x17F then 83
    else if c.toNat = 0x212A then 75
    else c.toNat)

/-- The field a key selects among the given JSON names: the field of exactly
that name, else the first whose folded name is that of the key. -/
def matchField (names : List String) (key : String) : Option String :=
  if names.contains key then some key
  else names.find? (fun n => foldName n = foldName key)

/-- The JSON names of the fields of `Response`, `main.go` lines 81-87. -/
def responseFields : List String := ["success", "result"]

/-- The JSON names of the fields of `Response.Result`, `main.go` lines
83-86. -/
def resultFields : List String := ["ts", "currencyPair", "buyRate", "sellRate"]

/-- The method `saveError`: the first error saved is kept. -/
def saveError (saved : Option Error) (e : Error) : Option Error :=
  match saved with
  | some s => some s
  | none => some e

/-- The kind of a JSON value, as an `UnmarshalTypeError` names it. -/
def jsonKind : JValue → String
  | JValue.null => "null"
  | JValue.bool _ => "bool"
  | JValue.number _ => "number"
  | JValue.string _ => "string"
  | JValue.array _ => "array"
  | JValue.object _ => "object"

/-- An `UnmarshalTypeError` for a struct field. -/
def typeError (value field type : String) : Error :=
  ⟨"json: cannot unmarshal " ++ value ++ " into Go struct field " ++ field ++ " of type " ++ type⟩

/-- The error of a misused `,string` option on a quoted text. -/
def invalidUse (item : String) : Error :=
  ⟨"json: invalid use of ,string struct tag, trying to unmarshal " ++ goQuote item ++
    " into float64"⟩

/-- The error that stands for every `SyntaxError` of the decoder (the library
also reports the offending character and position). -/
def syntaxError : Error := ⟨"json: syntax error"⟩

/-- The type of `Response.Result` as the library prints it. -/
def resultTypeName : String :=
  "struct \x7b Ts string \"json:\\\"ts\\\"\"; CurrencyPair string \"json:\\\"currencyPair\\\"\"; BuyRate float64 \"json:\\\"buyRate,string\\\"\"; SellRate float64 \"json:\\\"sellRate,string\\\"\" \x7d"

/-- Storing a JSON value into a `string` field: a string is stored, null
leaves the field, anything else saves a type error. -/
def storeString (v : JValue) (field : String) (cur : String) (saved : Option Error) :
    String × Option Error :=
  match v with
  | JValue.string s => (s, saved)
  | JValue.null => (cur, saved)
  | other => (cur, saveError saved (typeError (jsonKind other) field "string"))

/-- Storing a JSON value into a `bool` field. -/
def storeBool (v : JValue) (field : String) (cur : Bool) (saved : Option Error) :
    Bool × Option Error :=
  match v with
  | JValue.bool b => (b, saved)
  | JValue.null => (cur, saved)
  | other => (cur, saveError saved (typeError (jsonKind other) field "bool"))

/-- Whether a text is one well-formed JSON string literal (`unquoteBytes`). -/
def unquoteOK (item : String) : Bool :=
  match (bytesOf item).map UInt8.toNat with
  | 34 :: rest =>
    match scanString (rest.length + 1) rest [] with
    | some (_, []) => true
    | _ => false
  | _ => false

/-- The method `literalStore` on the text of a quoted `float64` field
(`fromQuoted`): the text null leaves the field; a text that begins with a
digit or a minus sign is given to `strconv.ParseFloat` and stored, or saves a
type error; every other text is an error.  `Except.error` is an error that
ends the decoding at once. -/
def literalStoreFloat (item field : String) (cur : Float64) (saved : Option Error) :
    Except Error (Float64 × Option Error) :=
  match item.data with
  | [] => Except.ok (cur, saveError saved (invalidUse item))
  | c :: _ =>
    if c.toNat = 110 then
      if item = "null" then Except.ok (cur, saved)
      else Except.ok (cur, saveError saved (invalidUse item))
    else if c.toNat = 116 ∨ c.toNat = 102 then
      Except.ok (cur, saveError saved (invalidUse item))
    else if c.toNat = 34 then
      if unquoteOK item then Except.ok (cur, saveError saved (typeError "string" field "float64"))
      else Except.error (invalidUse item)
    else if c.toNat ≠ 45 ∧ ¬ (48 ≤ c.toNat ∧ c.toNat ≤ 57) then Except.error (invalidUse item)
    else
      match ParseFloat item with
      | (x, none) => Except.ok (x, saved)
      | (_, some _) =>
        Except.ok (cur, saveError saved (typeError ("number " ++ item) field "float64"))

/-- Storing a JSON value into a `float64` field with the `,string` option: a
string is unquoted and stored by `literalStoreFloat`, null leaves the field,
an unquoted value saves an error. -/
def storeQuotedFloat (v : JValue) (field : String) (cur : Float64) (saved : Option Error) :
    Except Error (Float64 × Option Error) :=
  match v with
  | JValue.null => Except.ok (cur, saved)
  | JValue.string s => literalStoreFloat s field cur saved
  | _ =>
    Except.ok (cur, saveError saved
      ⟨"json: invalid use of ,string struct tag, trying to unmarshal unquoted value into float64"⟩)

/-- The members of an object stored one after the other, until one ends the
decoding with an error. -/
def decodeMembers {α : Type} (step : α → String × JValue → Except Error α) :
    α → List (String × JValue) → Except Error α
  | st, [] => Except.ok st
  | st, m :: rest =>
    match step st m with
    | Except.error e => Except.error e
    | Except.ok st1 => decodeMembers step st1 rest

/-- One member of the `result` object stored into `Response.Result`; a key
that selects no field is skipped. -/
def resultStep (st : ResponseResult × Option Error) (m : String × JValue) :
    Except Error (ResponseResult × Option Error) :=
  match matchField resultFields m.1 with
  | none => Except.ok st
  | some f =>
    if f = "ts" then
      Except.ok ({ st.1 with Ts := (storeString m.2 ".result.ts" st.1.Ts st.2).1 },
                 (storeString m.2 ".result.ts" st.1.Ts st.2).2)
    else if f = "currencyPair" then
      Except.ok
        ({ st.1 with
            CurrencyPair := (storeString m.2 ".result.currencyPair" st.1.CurrencyPair st.2).1 },
         (storeString m.2 ".result.currencyPair" st.1.CurrencyPair st.2).2)
    else if f = "buyRate" then
      match storeQuotedFloat m.2 ".result.buyRate" st.1.BuyRate st.2 with
      | Except.error e => Except.error e
      | Except.ok (x, saved) => Except.ok ({ st.1 with BuyRate := x }, saved)
    else
      match storeQuotedFloat m.2 ".result.sellRate" st.1.SellRate st.2 with
      | Except.error e => Except.error e
      | Except.ok (x, saved) => Except.ok ({ st.1 with SellRate := x }, saved)

/-- One member of the top-level object stored into `Response`. -/
def responseStep (st : Response × Option Error) (m : String × JValue) :
    Except Error (Response × Option Error) :=
  match matchField responseFields m.1 with
  | none => Except.ok st
  | some f =>
    if f = "success" then
      Except.ok ({ st.1 with Success := (storeBool m.2 "Response.success" st.1.Success st.2).1 },
                 (storeBool m.2 "Response.success" st.1.Success st.2).2)
    else
      match m.2 with
      | JValue.object rs =>
        match decodeMembers resultStep (st.1.Result, st.2) rs with
        | Except.error e => Except.error e
        | Except.ok (r, saved) => Except.ok ({ st.1 with Result := r }, saved)
      | JValue.null => Except.ok st
      | other =>
        Except.ok (st.1, saveError st.2 (typeError (jsonKind other) "Response.result" resultTypeName))

/-- A JSON value stored into a zero `Response`: the struct and the error, the
one that ended the decoding or else the first one saved.  (When there is an
error the struct is whatever was stored before it; the program drops it.) -/
def decodeResponse (v : JValue) : Response × Option Error :=
  match v with
  | JValue.object ms =>
    match decodeMembers responseStep (Response.zero, none) ms with
    | Except.error e => (Response.zero, some e)
    | Except.ok (r, saved) => (r, saved)
  | JValue.null => (Response.zero, none)
  | other =>
    (Response.zero,
      some ⟨"json: cannot unmarshal " ++ jsonKind other ++ " into Go value of type main.Response"⟩)

/-- The function `json.Unmarshal` into a zero `Response`, `main.go` lines
90-91. -/
def jsonUnmarshal (data : List UInt8) : Response × Option Error :=
  match parseJSON (data.map UInt8.toNat) with
  | none => (Response.zero, some syntaxError)
  | some v => decodeResponse v

/-! ## The time parsing the program asks of the library

A model of `time.Parse` for the layout `time.RFC3339`, the only layout the
program passes: the elements of the layout are read from the text one after
the other, as the library does for the layout
`2006-01-02T15:04:05Z07:00`. -/

/-- The function `quote` of package `time`: the text in double quotes, quotes
and backslashes escaped, every byte of a control or non-ASCII character in
hexadecimal. -/
def timeQuote (s : String) : String :=
  let hexDigit (n : Nat) : Char := "0123456789abcdef".data.getD n '0'
  "\"" ++ String.mk (s.data.flatMap (fun c =>
    if 128 ≤ c.toNat ∨ c.toNat < 32 then
      (String.utf8EncodeChar c).flatMap
        (fun b => [Char.ofNat 92, 'x', hexDigit (b.toNat / 16), hexDigit (b.toNat % 16)])
    else if c.toNat = 34 ∨ c.toNat = 92 then [Char.ofNat 92, c]
    else [c])) ++ "\""

/-- A `ParseError` for an element of the layout that the text does not
match. -/
def parseError (value elem rest : String) : Error :=
  ⟨"parsing time " ++ timeQuote value ++ " as " ++ timeQuote RFC3339 ++ ": cannot parse " ++
    timeQuote rest ++ " as " ++ timeQuote elem⟩

/-- A `ParseError` for a field out of range. -/
def rangeError (value what : String) : Error :=
  ⟨"parsing time " ++ timeQuote value ++ ": " ++ what ++ " out of range"⟩

/-- Whether a character is a decimal digit. -/
def isDigit (c : Char) : Bool := 48 ≤ c.toNat ∧ c.toNat ≤ 57

/-- The function `getnum`: a number of one or two digits at the head of the
text, of exactly two digits when `fixed`. -/
def getnum (cs : List Char) (fixed : Bool) : Option (Nat × List Char) :=
  match cs with
  | [] => none
  | [c0] => if isDigit c0 ∧ ¬ fixed then some (c0.toNat - 48, []) else none
  | c0 :: c1 :: rest =>
    if ¬ isDigit c0 then none
    else if isDigit c1 then some ((c0.toNat - 48) * 10 + (c1.toNat - 48), rest)
    else if fixed then none
    else some (c0.toNat - 48, c1 :: rest)

/-- The value of a run of decimal digits. -/
def digitsValue (cs : List Char) : Nat := cs.foldl (fun n c => n * 10 + (c.toNat - 48)) 0

/-- The function `daysIn`: the number of days of a month of a year. -/
def daysIn (month year : Nat) : Nat :=
  if month = 2 then (if year % 4 = 0 ∧ (year % 100 ≠ 0 ∨ year % 400 = 0) then 29 else 28)
  else if month = 4 ∨ month = 6 ∨ month = 9 ∨ month = 11 then 30
  else 31

/-- The days from January 1 of year 1 to the given date of the proleptic
Gregorian calendar. -/
def daysSinceYear1 (year month day : Nat) : Int :=
  let leapsBefore := if year = 0 then 0 else (year - 1) / 4 - (year - 1) / 100 + (year - 1) / 400 + 1
  let beforeMonth := ((List.range (month - 1)).map (fun m => daysIn (m + 1) year)).sum
  ((365 * year + leapsBefore + beforeMonth + (day - 1) : Nat) : Int) - 366

/-- The time zone element `Z07:00`: the offset in seconds east of UTC and the
rest of the text, or an error. -/
def parseZone (value : String) (cs : List Char) : Except Error (Int × List Char) :=
  match cs with
  | 'Z' :: rest => Except.ok (0, rest)
  | sign :: h0 :: h1 :: c :: m0 :: m1 :: rest =>
    if c ≠ ':' then Except.error (parseError value "Z07:00" (String.mk cs))
    else
      let hr : Option Nat := (getnum [h0, h1] true).map Prod.fst
      let mm : Option Nat := if hr.isSome then (getnum [m0, m1] true).map Prod.fst else some 0
      if 24 < hr.getD 0 ∧ mm.getD 0 ≤ 60 then
        Except.error (rangeError value "time zone offset hour")
      else if 60 < mm.getD 0 then Except.error (rangeError value "time zone offset minute")
      else if hr.isNone ∨ mm.isNone ∨ (sign ≠ '+' ∧ sign ≠ '-') then
        Except.error (parseError value "Z07:00" (String.mk cs))
      else
        Except.ok ((if sign = '-' then -1 else 1) * (((hr.getD 0 * 60 + mm.getD 0) * 60 : Nat) : Int),
                   rest)
  | _ => Except.error (parseError value "Z07:00" (String.mk cs))

/-- The fractional second that may follow the seconds though the layout has
none: a point or a comma and digits; the nanoseconds (by the first nine
digits) and the rest. -/
def parseFraction (cs : List Char) : Nat × List Char :=
  match cs with
  | p :: d :: rest =>
    if (p = '.' ∨ p = ',') ∧ isDigit d then
      let ds := (d :: rest).takeWhile isDigit
      let kept := ds.take 9
      (digitsValue kept * 10 ^ (9 - kept.length), (d :: rest).dropWhile isDigit)
    else (0, cs)
  | _ => (0, cs)

/-- The text after the given character, or the parse error for that element
of the layout. -/
def skipChar (value : String) (c : Char) (cs : List Char) : Except Error (List Char) :=
  match cs with
  | d :: rest => if d = c then Except.ok rest else Except.error (parseError value (String.mk [c]) (String.mk cs))
  | [] => Except.error (parseError value (String.mk [c]) "")

/-- A numeric element of the layout: the number and the rest, or the parse
error for that element. -/
def numElem (value elem : String) (fixed : Bool) (cs : List Char) : Except Error (Nat × List Char) :=
  match getnum cs fixed with
  | some r => Except.ok r
  | none => Except.error (parseError value elem (String.mk cs))

/-- The function `time.Parse(time.RFC3339, value)`: the time and the error.
The year has four digits; month, day, minute and second two; the hour one or
two; a fraction of a second may follow the seconds; the zone is `Z` or a
signed `hh:mm`; nothing may follow. -/
def parseRFC3339 (value : String) : Except Error Time :=
  let cs := value.data
  match cs with
  | y0 :: y1 :: y2 :: y3 :: r0 =>
    if ¬ (isDigit y0 ∧ isDigit y1 ∧ isDigit y2 ∧ isDigit y3) then
      Except.error (parseError value "2006" value)
    else
      let year := digitsValue [y0, y1, y2, y3]
      match skipChar value '-' r0 with
      | Except.error e => Except.error e
      | Except.ok r1 =>
      match numElem value "01" true r1 with
      | Except.error e => Except.error e
      | Except.ok (month, r2) =>
      if month = 0 ∨ 12 < month then Except.error (rangeError value "month") else
      match skipChar value '-' r2 with
      | Except.error e => Except.error e
      | Except.ok r3 =>
      match numElem value "02" true r3 with
      | Except.error e => Except.error e
      | Except.ok (day, r4) =>
      match skipChar value 'T' r4 with
      | Except.error e => Except.error e
      | Except.ok r5 =>
      match numElem value "15" false r5 with
      | Except.error e => Except.error e
      | Except.ok (hour, r6) =>
      if 24 ≤ hour then Except.error (rangeError value "hour") else
      match skipChar value ':' r6 with
      | Except.error e => Except.error e
      | Except.ok r7 =>
      match numElem value "04" true r7 with
      | Except.error e => Except.error e
      | Except.ok (min, r8) =>
      if 60 ≤ min then Except.error (rangeError value "minute") else
      match skipChar value ':' r8 with
      | Except.error e => Except.error e
      | Except.ok r9 =>
      match numElem value "05" true r9 with
      | Except.error e => Except.error e
      | Except.ok (sec, r10) =>
      if 60 ≤ sec then Except.error (rangeError value "second") else
      match parseZone value (parseFraction r10).2 with
      | Except.error e => Except.error e
      | Except.ok (offset, r11) =>
      if r11 ≠ [] then
        Except.error ⟨"parsing time " ++ timeQuote value ++ ": extra text: " ++
          timeQuote (String.mk r11)⟩
      else if day < 1 ∨ daysIn month year < day then Except.error (rangeError value "day")
      else
        Except.ok
          { sec := daysSinceYear1 year month day * 86400 + ((hour * 3600 + min * 60 + sec : Nat) : Int)
                     - offset,
            nsec := (parseFraction r10).1,
            offset := offset }
  | _ => Except.error (parseError value "2006" value)

/-- The function `time.Parse` as the program calls it, `main.go` line 97: the
parsed time and a nil error, or the zero time and the error.  Only the layout
`time.RFC3339` is modelled. -/
def timeParse (layout value : String) : Time × Option Error :=
  if layout = RFC3339 then
    match parseRFC3339 value with
    | Except.ok t => (t, none)
    | Except.error e => (⟨0, 0, 0⟩, some e)
  else (⟨0, 0, 0⟩, some ⟨"layout not modelled"⟩)

/-- The library with its JSON decoder and its time parser as modelled here;
the other functions stay as given. -/
def withDecoders (lib : Lib) : Lib :=
  { lib with Unmarshal := jsonUnmarshal, Parse := timeParse }

/-- Modelled from the spec: the `date-time` grammar of RFC 3339, section 5.6
(four-digit year, two-digit month, day, hour, minute and second, an optional
fraction after a point, and `Z` or a signed two-digit `hh:mm` offset). -/
def conformsRFC3339 (s : String) : Bool :=
  match s.data with
  | y0 :: y1 :: y2 :: y3 :: '-' :: m0 :: m1 :: '-' :: d0 :: d1 :: t :: h0 :: h1 :: ':' ::
      n0 :: n1 :: ':' :: s0 :: s1 :: rest =>
    let two (a b : Char) : Nat := (a.toNat - 48) * 10 + (b.toNat - 48)
    let zone (z : List Char) : Bool :=
      match z with
      | [c] => c = 'Z' || c = 'z'
      | [sg, a, b, ':', c, d] =>
        (sg = '+' || sg = '-') && isDigit a && isDigit b && isDigit c && isDigit d &&
          decide (two a b ≤ 23) && decide (two c d ≤ 59)
      | _ => false
    let tail : Bool :=
      match rest with
      | '.' :: f :: more => isDigit f && zone ((f :: more).dropWhile isDigit)
      | z => zone z
    [y0, y1, y2, y3, m0, m1, d0, d1, h0, h1, n0, n1, s0, s1].all isDigit &&
      (t = 'T' || t = 't') &&
      decide (1 ≤ two m0 m1) && decide (two m0 m1 ≤ 12) && decide (1 ≤ two d0 d1) &&
      decide (two d0 d1 ≤ daysIn (two m0 m1) (digitsValue [y0, y1, y2, y3])) &&
      decide (two h0 h1 ≤ 23) && decide (two n0 n1 ≤ 59) && decide (two s0 s1 ≤ 60) && tail
  | _ => false

/-- The value of two decimal digits. -/
def twoDigits (a b : Char) : Nat := (a.toNat - 48) * 10 + (b.toNat - 48)

/-- The zone texts the time parser accepts: `Z`, or a sign, two digits, a
colon and two digits, the hours at most 24 and the minutes at most 60. -/
def zoneShape (z : List Char) : Bool :=
  match z with
  | [c] => c = 'Z'
  | [sg, a, b, c, d, e] =>
    (sg = '+' || sg = '-') && isDigit a && isDigit b && c = ':' && isDigit d && isDigit e &&
      decide (twoDigits a b ≤ 24) && decide (twoDigits d e ≤ 60)
  | _ => false

/-- The texts the time parser accepts after the hour: a colon, two digits of
minutes, a colon, two digits of seconds, an optional fraction (after a point
or a comma) and a zone, with hour, minute and second in range. -/
def clockShape (hour : Nat) (t : List Char) : Bool :=
  match t with
  | c0 :: n0 :: n1 :: c3 :: s0 :: s1 :: z =>
    c0 = ':' && isDigit n0 && isDigit n1 && c3 = ':' && isDigit s0 && isDigit s1 &&
      decide (hour < 24) && decide (twoDigits n0 n1 < 60) && decide (twoDigits s0 s1 < 60) &&
      zoneShape (parseFraction z).2
  | _ => false

/-- The texts `time.Parse` accepts for the layout RFC3339, described by their
form: `YYYY-MM-DDTh:mm:ss` or `YYYY-MM-DDThh:mm:ss`, an optional fraction and
a zone, with a month from 1 to 12 and a day of that month. -/
def timeShape (s : String) : Bool :=
  match s.data with
  | y0 :: y1 :: y2 :: y3 :: c4 :: m0 :: m1 :: c7 :: d0 :: d1 :: c10 :: h0 :: rest =>
    isDigit y0 && isDigit y1 && isDigit y2 && isDigit y3 && c4 = '-' &&
      isDigit m0 && isDigit m1 && c7 = '-' && isDigit d0 && isDigit d1 && c10 = 'T' &&
      isDigit h0 &&
      decide (1 ≤ twoDigits m0 m1) && decide (twoDigits m0 m1 ≤ 12) &&
      decide (1 ≤ twoDigits d0 d1) &&
      decide (twoDigits d0 d1 ≤ daysIn (twoDigits m0 m1) (digitsValue [y0, y1, y2, y3])) &&
      (match rest with
       | h1 :: t =>
         if isDigit h1 then clockShape (twoDigits h0 h1) t
         else clockShape (h0.toNat - 48) rest
       | [] => false)
  | _ => false

/-! ## More test doubles -/

/-- The surroundings `env` with a record of the requests handed to its
transport: the state is the state of `env` and the list of those requests, and
clock, transport and printing act on the state of `env` as `env` does. -/
def recordingOver {σ : Type} (env : Env σ) : Env (σ × List Request) where
  Now := fun s => ((env.Now s.1).1, ((env.Now s.1).2, s.2))
  Do := fun req s => ((env.Do req s.1).1, ((env.Do req s.1).2, s.2 ++ [req]))
  Println := fun label err s => (env.Println label err s.1, s.2)

/-- Surroundings whose clock advances by one second at every reading,
starting at 2024-01-01T12:00:05Z; the state counts the readings. -/
def tickingEnv (transport : Request → Except Error HttpResponse) : Env Nat where
  Now := fun n => ({ sec := 63839707205 + n, nsec := 0, offset := 3600 }, n + 1)
  Do := fun req n => (transport req, n)
  Println := fun _ _ n => n

/-- The test library with a clock format that tells the first reading of
`tickingEnv` from the later ones. -/
def tickLib : Lib :=
  { testLib with
    Format := fun t _ =>
      if t.sec = 63839707205 then "2024-01-01T12:00:05Z" else "2024-01-01T12:00:06Z" }

/-- The body of the parsing example with the buy rate `null` in quotes. -/
def bodyNullRate : String :=
  "\x7b\"success\":true,\"result\":\x7b\"ts\":\"2024-01-01T12:00:00Z\",\"currencyPair\":\"EURPLN\",\"buyRate\":\"null\",\"sellRate\":\"4.3199\"\x7d\x7d"

/-- The body of the parsing example with the buy rate `1e400`. -/
def bodyHugeRate : String :=
  "\x7b\"success\":true,\"result\":\x7b\"ts\":\"2024-01-01T12:00:00Z\",\"currencyPair\":\"EURPLN\",\"buyRate\":\"1e400\",\"sellRate\":\"4.3199\"\x7d\x7d"

/-- The body of the parsing example with a one-digit hour in the timestamp. -/
def bodyShortHour : String :=
  "\x7b\"success\":true,\"result\":\x7b\"ts\":\"2024-01-01T1:00:00Z\",\"currencyPair\":\"EURPLN\",\"buyRate\":\"4.3012\",\"sellRate\":\"4.3199\"\x7d\x7d"

/-- The body of the parsing example without a timestamp. -/
def bodyNoTime : String :=
  "\x7b\"success\":true,\"result\":\x7b\"currencyPair\":\"EURPLN\",\"buyRate\":\"4.3012\",\"sellRate\":\"4.3199\"\x7d\x7d"

/-- The JSON value of the expected shape: an object with the members `success`
and `result`, the latter an object with the string members `ts`,
`currencyPair`, `buyRate` and `sellRate`. -/
def expectedShape (success : Bool) (ts currencyPair buyRate sellRate : String) : JValue :=
  JValue.object
    [("success", JValue.bool success),
     ("result", JValue.object
        [("ts", JValue.string ts), ("currencyPair", JValue.string currencyPair),
         ("buyRate", JValue.string buyRate), ("sellRate", JValue.string sellRate)])]

/-- A decoding that has failed: it was ended by an error or has saved one. -/
def failed {α : Type} : Except Error (α × Option Error) → Prop
  | Except.error _ => True
  | Except.ok st => st.2 ≠ none

/-- Whether a text begins with a minus sign or a decimal digit, as the text
of a quoted number must for the decoder to convert it. -/
def beginsNumber (s : String) : Bool :=
  match s.data with
  | c :: _ => c.toNat = 45 || isDigit c
  | [] => false

/-- The body of the parsing example at the leap second of the end of 1990, a
timestamp that RFC 3339 gives as an example. -/
def bodyLeapSecond : String :=
  "\x7b\"success\":true,\"result\":\x7b\"ts\":\"1990-12-31T23:59:60Z\",\"currencyPair\":\"EURPLN\",\"buyRate\":\"4.3012\",\"sellRate\":\"4.3199\"\x7d\x7d"

/-! ## The loop of obtainExchangeRates -/

/-- One iteration of the loop whose fetch returns no error. -/
theorem rangePairs_cons_ok {σ : Type}
    (fetch : String → RSAPrivateKey → σ → (CurrencyRate × Option Error) × σ)
    (key : RSAPrivateKey) (p : String) (rest : List String) (results : List CurrencyRate)
    (w w1 : σ) (rate : CurrencyRate) (h : fetch p key w = ((rate, none), w1)) :
    rangePairs fetch key (p :: rest) results w
      = rangePairs fetch key rest (results ++ [rate]) w1 := by
  simp [rangePairs, h]

/-- One iteration of the loop whose fetch returns an error. -/
theorem rangePairs_cons_error {σ : Type}
    (fetch : String → RSAPrivateKey → σ → (CurrencyRate × Option Error) × σ)
    (key : RSAPrivateKey) (p : String) (rest : List String) (results : List CurrencyRate)
    (w w1 : σ) (rate : CurrencyRate) (e : Error) (h : fetch p key w = ((rate, some e), w1)) :
    rangePairs fetch key (p :: rest) results w = ((none, some e), w1) := by
  simp [rangePairs, h]

/-- When every fetch of the remaining pairs succeeds, the loop appends their
rates in order and calls the fetch once for each. -/
theorem rangePairs_all_ok (f : String → RSAPrivateKey → CurrencyRate × Option Error)
    (key : RSAPrivateKey) (ps : List String) :
    ∀ (results : List CurrencyRate) (calls : List String),
      (∀ p ∈ ps, (f p key).2 = none) →
      rangePairs (recordingFetch f) key ps results calls
        = ((some (results ++ ps.map (fun p => (f p key).1)), none), calls ++ ps) := by
  induction ps with
  | nil => intro results calls _; simp [rangePairs]
  | cons p rest ih =>
    intro results calls h
    have hp : (f p key).2 = none := h p (List.mem_cons_self _ _)
    have hrest : ∀ q ∈ rest, (f q key).2 = none := fun q hq => h q (List.mem_cons_of_mem _ hq)
    have hfp : recordingFetch f p key calls = (((f p key).1, none), calls ++ [p]) := by
      simp only [recordingFetch]
      rw [← hp]
    rw [rangePairs_cons_ok _ key p rest results calls _ _ hfp, ih _ _ hrest]
    simp

/-- When the fetches of `pre` succeed and the fetch of `p` fails, the loop
over `pre ++ p :: post` returns that error and a nil slice, having called the
fetch for `pre` and `p` only. -/
theorem rangePairs_first_error (f : String → RSAPrivateKey → CurrencyRate × Option Error)
    (key : RSAPrivateKey) (p : String) (post : List String) (e : Error)
    (hp : (f p key).2 = some e) (pre : List String) :
    ∀ (results : List CurrencyRate) (calls : List String),
      (∀ q ∈ pre, (f q key).2 = none) →
      rangePairs (recordingFetch f) key (pre ++ p :: post) results calls
        = ((none, some e), calls ++ pre ++ [p]) := by
  induction pre with
  | nil =>
    intro results calls _
    have hfp : recordingFetch f p key calls = (((f p key).1, some e), calls ++ [p]) := by
      simp only [recordingFetch]
      rw [← hp]
    rw [List.nil_append, rangePairs_cons_error _ key p post results calls _ _ e hfp]
    simp
  | cons q rest ih =>
    intro results calls h
    have hq : (f q key).2 = none := h q (List.mem_cons_self _ _)
    have hrest : ∀ r ∈ rest, (f r key).2 = none := fun r hr => h r (List.mem_cons_of_mem _ hr)
    have hfq : recordingFetch f q key calls = (((f q key).1, none), calls ++ [q]) := by
      simp only [recordingFetch]
      rw [← hq]
    rw [List.cons_append, rangePairs_cons_ok _ key q _ results calls _ _ hfq, ih _ _ hrest]
    simp

/-- A list with a failing pair splits at its first failing pair. -/
theorem exists_first_failure (f : String → RSAPrivateKey → CurrencyRate × Option Error)
    (key : RSAPrivateKey) (ps : List String) (h : ∃ p ∈ ps, (f p key).2 ≠ none) :
    ∃ pre p post e, ps = pre ++ p :: post ∧ (∀ q ∈ pre, (f q key).2 = none) ∧
      (f p key).2 = some e := by
  induction ps with
  | nil => obtain ⟨p, hp, _⟩ := h; simp at hp
  | cons a rest ih =>
    cases ha : (f a key).2 with
    | some e => exact ⟨[], a, rest, e, rfl, by simp, ha⟩
    | none =>
      have h2 : ∃ p ∈ rest, (f p key).2 ≠ none := by
        obtain ⟨p, hp, hne⟩ := h
        rcases List.mem_cons.mp hp with rfl | hp
        · exact absurd ha hne
        · exact ⟨p, hp, hne⟩
      obtain ⟨pre, p, post, e, hsplit, hpre, hpe⟩ := ih h2
      refine ⟨a :: pre, p, post, e, by simp [hsplit], ?_, hpe⟩
      intro q hq
      rcases List.mem_cons.mp hq with rfl | hq
      · exact ha
      · exact hpre q hq

/-- C1: when the fetch succeeds for every pair of the pair list,
`obtainExchangeRates` returns no error and the list of the four rates the
fetch returned, for USDPLN, GBPPLN, CHFPLN and EURPLN in that order, one entry
per pair; the fetch is called once per pair in that order. -/
theorem obtainExchangeRates_all_succeed
    (f : String → RSAPrivateKey → CurrencyRate × Option Error) (key : RSAPrivateKey)
    (h : ∀ p ∈ pairs, (f p key).2 = none) :
    obtainExchangeRatesWith (recordingFetch f) key []
      = ((some [(f "USDPLN" key).1, (f "GBPPLN" key).1, (f "CHFPLN" key).1,
                (f "EURPLN" key).1], none),
         ["USDPLN", "GBPPLN", "CHFPLN", "EURPLN"]) := by
  unfold obtainExchangeRatesWith
  rw [rangePairs_all_ok f key pairs [] [] h]
  simp [pairs]

/-- C1, at a fetch that succeeds on every pair. -/
theorem obtainExchangeRates_all_succeed_witness :
    (∀ p ∈ pairs, (fetchAlways p sampleKey).2 = none) ∧
    obtainExchangeRatesWith (recordingFetch fetchAlways) sampleKey []
      = ((some [(fetchAlways "USDPLN" sampleKey).1, (fetchAlways "GBPPLN" sampleKey).1,
                (fetchAlways "CHFPLN" sampleKey).1, (fetchAlways "EURPLN" sampleKey).1], none),
         ["USDPLN", "GBPPLN", "CHFPLN", "EURPLN"]) :=
  ⟨fun _ _ => rfl, obtainExchangeRates_all_succeed fetchAlways sampleKey (fun _ _ => rfl)⟩

/-- C2: when the fetch fails for at least one pair of the pair list, the list
splits at its first failing pair `p` (every pair before it succeeds), and
`obtainExchangeRates` returns the error of `p` with a nil result slice, having
called the fetch exactly for the pairs up to and including `p`. -/
theorem obtainExchangeRates_fail_fast
    (f : String → RSAPrivateKey → CurrencyRate × Option Error) (key : RSAPrivateKey)
    (h : ∃ p ∈ pairs, (f p key).2 ≠ none) :
    ∃ pre p post e, pairs = pre ++ p :: post ∧ (∀ q ∈ pre, (f q key).2 = none) ∧
      (f p key).2 = some e ∧
      obtainExchangeRatesWith (recordingFetch f) key [] = ((none, some e), pre ++ [p]) := by
  obtain ⟨pre, p, post, e, hsplit, hpre, hpe⟩ := exists_first_failure f key pairs h
  refine ⟨pre, p, post, e, hsplit, hpre, hpe, ?_⟩
  unfold obtainExchangeRatesWith
  rw [hsplit, rangePairs_first_error f key p post e hpe pre [] [] hpre]
  simp

/-- C2, at a fetch that fails on CHFPLN and on EURPLN. -/
theorem obtainExchangeRates_fail_fast_witness :
    (∃ p ∈ pairs, (fetchFailing p sampleKey).2 ≠ none) ∧
    ∃ pre p post e, pairs = pre ++ p :: post ∧
      (∀ q ∈ pre, (fetchFailing q sampleKey).2 = none) ∧
      (fetchFailing p sampleKey).2 = some e ∧
      obtainExchangeRatesWith (recordingFetch fetchFailing) sampleKey []
        = ((none, some e), pre ++ [p]) :=
  ⟨⟨"CHFPLN", by decide, by decide⟩,
   obtainExchangeRates_fail_fast fetchFailing sampleKey ⟨"CHFPLN", by decide, by decide⟩⟩

/-! ## base64 and bytes -/

/-- The bytes of a concatenation are the bytes of its parts, in order, with
nothing between them. -/
theorem bytesOf_append (a b : String) : bytesOf (a ++ b) = bytesOf a ++ bytesOf b := by
  simp [bytesOf, String.toUTF8]

/-- The length of the encoding, for sources of bounded length. -/
theorem encodeChars_length_bounded (n : Nat) : ∀ src : List UInt8, src.length ≤ n →
    (encodeChars src).length = 4 * ((src.length + 2) / 3) := by
  induction n using Nat.strong_induction_on with
  | _ n ih =>
    intro src hlen
    match src, hlen with
    | [], _ => simp [encodeChars]
    | [a], _ => simp [encodeChars]
    | [a, b], _ => simp [encodeChars]
    | a :: b :: c :: rest, hlen =>
      simp only [encodeChars, List.length_cons] at hlen ⊢
      rw [ih rest.length (by omega) rest (le_refl _)]
      omega

/-- Padded base64 has four characters for every three bytes, rounded up. -/
theorem encodeChars_length (src : List UInt8) :
    (encodeChars src).length = 4 * ((src.length + 2) / 3) :=
  encodeChars_length_bounded src.length src (le_refl _)

/-- The test vectors of RFC 4648, section 10. -/
theorem EncodeToString_rfc4648 :
    EncodeToString (bytesOf "") = "" ∧
    EncodeToString (bytesOf "f") = "Zg==" ∧
    EncodeToString (bytesOf "fo") = "Zm8=" ∧
    EncodeToString (bytesOf "foo") = "Zm9v" ∧
    EncodeToString (bytesOf "foob") = "Zm9vYg==" ∧
    EncodeToString (bytesOf "fooba") = "Zm9vYmE=" ∧
    EncodeToString (bytesOf "foobar") = "Zm9vYmFy" := by
  decide

/-! ## signRequest -/

/-- C3: for an RSA key on which the signing primitive succeeds, `signRequest`
returns, with no error, the padded standard base64 text of the PKCS#1 v1.5
signature of the SHA-256 digest of the bytes of `timestamp ++ path ++ body`,
which are the bytes of the three strings in that order with nothing between
them; being a function, it depends on these four inputs only. -/
theorem signRequest_rsa_signature (lib : Lib) (timestamp path body : String)
    (key : RSAPrivateKey) (signature : List UInt8)
    (h : lib.SignPKCS1v15 key cryptoSHA256 (lib.Sum256 (bytesOf (timestamp ++ path ++ body)))
          = (signature, none)) :
    signRequest lib timestamp path body (PrivateKey.rsa key)
      = (EncodeToString signature, none) ∧
    bytesOf (timestamp ++ path ++ body) = bytesOf timestamp ++ bytesOf path ++ bytesOf body := by
  constructor
  · simp [signRequest, h]
  · rw [bytesOf_append, bytesOf_append]

/-- C3, at the test library and the sample key. -/
theorem signRequest_rsa_signature_witness :
    testLib.SignPKCS1v15 sampleKey cryptoSHA256
        (testLib.Sum256 (bytesOf ("2024-01-01T12:00:05Z" ++ (endpoint ++ "EURPLN") ++ "")))
      = ([193, 67, 168], none) ∧
    EncodeToString [193, 67, 168] = "wUOo" ∧
    signRequest testLib "2024-01-01T12:00:05Z" (endpoint ++ "EURPLN") ""
        (PrivateKey.rsa sampleKey)
      = (EncodeToString [193, 67, 168], none) :=
  ⟨by decide, by decide,
   (signRequest_rsa_signature testLib "2024-01-01T12:00:05Z" (endpoint ++ "EURPLN") ""
     sampleKey [193, 67, 168] (by decide)).1⟩

/-- C8: with a key whose type is not `*rsa.PrivateKey`, `signRequest` returns
the error "unsupported key type" and the empty string; and for every key,
whenever `signRequest` returns an error the signature it returns is the empty
string. -/
theorem signRequest_error_empty (lib : Lib) (timestamp path body : String)
    (privateKey : PrivateKey) :
    (∀ typeName, signRequest lib timestamp path body (PrivateKey.other typeName)
        = ("", some ⟨"unsupported key type"⟩)) ∧
    ((signRequest lib timestamp path body privateKey).2 ≠ none →
      (signRequest lib timestamp path body privateKey).1 = "") := by
  constructor
  · intro typeName
    simp [signRequest]
  · cases privateKey with
    | other typeName => intro _; simp [signRequest]
    | rsa key =>
      cases hs : lib.SignPKCS1v15 key cryptoSHA256
          (lib.Sum256 (bytesOf (timestamp ++ path ++ body))) with
      | mk signature err =>
        cases err with
        | none => simp [signRequest, hs]
        | some e => simp [signRequest, hs]

/-- C8, at a key of another type and at an RSA key the signing primitive
refuses. -/
theorem signRequest_error_empty_witness :
    signRequest testLib "2024-01-01T12:00:05Z" (endpoint ++ "EURPLN") ""
        (PrivateKey.other "*ecdsa.PrivateKey")
      = ("", some ⟨"unsupported key type"⟩) ∧
    (signRequest testLib "2024-01-01T12:00:05Z" (endpoint ++ "EURPLN") ""
        (PrivateKey.rsa brokenKey)).2 = some ⟨"crypto/rsa: missing public modulus"⟩ ∧
    (signRequest testLib "2024-01-01T12:00:05Z" (endpoint ++ "EURPLN") ""
        (PrivateKey.rsa brokenKey)).1 = "" :=
  ⟨(signRequest_error_empty testLib "2024-01-01T12:00:05Z" (endpoint ++ "EURPLN") ""
      (PrivateKey.rsa brokenKey)).1 "*ecdsa.PrivateKey",
   by decide,
   (signRequest_error_empty testLib "2024-01-01T12:00:05Z" (endpoint ++ "EURPLN") ""
      (PrivateKey.rsa brokenKey)).2 (by decide)⟩

/-! ## getExchangeRate -/

/-- The header after the three `Header.Set` calls of `getExchangeRate`. -/
theorem header_after_sets (signature timestamp : String) :
    Header.Set (Header.Set (Header.Set [] "X-API-Key" apiKey) "X-API-Signature" signature)
        "X-API-Timestamp" timestamp
      = [("X-API-Key", apiKey), ("X-API-Signature", signature),
         ("X-API-Timestamp", timestamp)] := by
  simp [Header.Set]

/-- Once signing and request creation have succeeded, `getExchangeRate` hands
`signedRequest` to the transport and goes on with what the transport
returns. -/
theorem getExchangeRate_signed {σ : Type} (lib : Lib) (env : Env σ) (pairName : String)
    (key : RSAPrivateKey) (w : σ) (signature : String)
    (hsig : signRequest lib (lib.Format (lib.UTC (env.Now w).1) RFC3339) (endpoint ++ pairName)
              "" (PrivateKey.rsa key) = (signature, none))
    (hurl : lib.ParseURLError (urlBase ++ endpoint ++ pairName) = none) :
    getExchangeRate lib env pairName key w
      = match env.Do (signedRequest pairName signature
            (lib.Format (lib.UTC (env.Now w).1) RFC3339)) (env.Now w).2 with
        | (Except.error err, w) =>
          ((CurrencyRate.zero, some err), env.Println "Error executing request:" err w)
        | (Except.ok resp, w) =>
          match ReadAll resp.Body with
          | (_, some err) =>
            ((CurrencyRate.zero, some err), env.Println "Error reading response:" err w)
          | (body, none) =>
            match lib.Unmarshal body with
            | (_, some err) =>
              ((CurrencyRate.zero, some err), env.Println "Error unmarshalling JSON:" err w)
            | (respDecoded, none) =>
              match lib.Parse RFC3339 respDecoded.Result.Ts with
              | (_, some err) =>
                ((CurrencyRate.zero, some err), env.Println "Error parsing timestamp:" err w)
              | (parsedTime, none) =>
                (({ Timestamp := parsedTime
                    CurrencyPair := respDecoded.Result.CurrencyPair
                    BuyRate := respDecoded.Result.BuyRate
                    SellRate := respDecoded.Result.SellRate }, none), w) := by
  simp only [getExchangeRate, hsig, NewRequest, hurl, header_after_sets, signedRequest]


/-- The run of `getExchangeRate` in recorded surroundings: result and state
are those of the run in the surroundings themselves, and the record holds the
one signed request, or nothing when signing or request creation fails. -/
theorem getExchangeRate_recorded {σ : Type} (lib : Lib) (env : Env σ) (pairName : String)
    (key : RSAPrivateKey) (w : σ) :
    getExchangeRate lib (recordingOver env) pairName key (w, [])
      = ((getExchangeRate lib env pairName key w).1,
         ((getExchangeRate lib env pairName key w).2,
          if (signRequest lib (lib.Format (lib.UTC (env.Now w).1) RFC3339) (endpoint ++ pairName)
                "" (PrivateKey.rsa key)).2 = none ∧
              lib.ParseURLError (urlBase ++ endpoint ++ pairName) = none
          then [signedRequest pairName
                  (signRequest lib (lib.Format (lib.UTC (env.Now w).1) RFC3339)
                    (endpoint ++ pairName) "" (PrivateKey.rsa key)).1
                  (lib.Format (lib.UTC (env.Now w).1) RFC3339)]
          else [])) := by
  cases hs : signRequest lib (lib.Format (lib.UTC (env.Now w).1) RFC3339) (endpoint ++ pairName)
      "" (PrivateKey.rsa key) with
  | mk signature err =>
    have hs1 : signRequest lib
        (lib.Format (lib.UTC ((recordingOver env).Now (w, [])).1) RFC3339)
        (endpoint ++ pairName) "" (PrivateKey.rsa key) = (signature, err) := hs
    cases err with
    | some e => simp [getExchangeRate, hs, recordingOver]
    | none =>
      cases hu : lib.ParseURLError (urlBase ++ endpoint ++ pairName) with
      | some e => simp [getExchangeRate, hs, NewRequest, hu, recordingOver]
      | none =>
        rw [getExchangeRate_signed lib (recordingOver env) pairName key (w, []) signature hs1 hu,
          getExchangeRate_signed lib env pairName key w signature hs hu]
        simp only [recordingOver, List.nil_append, and_self, if_true]
        generalize env.Do (signedRequest pairName signature
          (lib.Format (lib.UTC (env.Now w).1) RFC3339)) (env.Now w).2 = r
        obtain ⟨a, s⟩ := r
        cases a with
        | error e => rfl
        | ok resp =>
          simp only [ReadAll]
          cases hr : resp.Body.err with
          | some e => rfl
          | none =>
            simp only []
            cases hj : lib.Unmarshal resp.Body.data with
            | mk dec jerr =>
              cases jerr with
              | some e => rfl
              | none =>
                simp only []
                cases ht : lib.Parse RFC3339 dec.Result.Ts with
                | mk t terr =>
                  cases terr with
                  | some e => rfl
                  | none => rfl

/-- C4: in any surroundings, whatever their clock does between readings, the
requests `getExchangeRate` hands to the transport are: none when signing or
request creation fails, and otherwise exactly one, a GET to
`urlBase ++ endpoint ++ pairName` whose X-API-Timestamp header is the
timestamp string given to `signRequest` (the format of the one clock reading)
and whose X-API-Signature header is the signature `signRequest` returned for
that timestamp, the path `endpoint ++ pairName` and the empty body.  Recording
the requests changes neither the result nor the state. -/
theorem getExchangeRate_request {σ : Type} (lib : Lib) (env : Env σ) (pairName : String)
    (key : RSAPrivateKey) (w : σ) :
    (getExchangeRate lib (recordingOver env) pairName key (w, [])).2.2
      = (if (signRequest lib (lib.Format (lib.UTC (env.Now w).1) RFC3339) (endpoint ++ pairName)
              "" (PrivateKey.rsa key)).2 = none ∧
            lib.ParseURLError (urlBase ++ endpoint ++ pairName) = none
         then [signedRequest pairName
                (signRequest lib (lib.Format (lib.UTC (env.Now w).1) RFC3339)
                  (endpoint ++ pairName) "" (PrivateKey.rsa key)).1
                (lib.Format (lib.UTC (env.Now w).1) RFC3339)]
         else []) ∧
    (getExchangeRate lib (recordingOver env) pairName key (w, [])).1
      = (getExchangeRate lib env pairName key w).1 ∧
    (getExchangeRate lib (recordingOver env) pairName key (w, [])).2.1
      = (getExchangeRate lib env pairName key w).2 ∧
    ∀ signature timestamp : String,
      (signedRequest pairName signature timestamp).Method = "GET" ∧
      (signedRequest pairName signature timestamp).URL = urlBase ++ (endpoint ++ pairName) ∧
      (signedRequest pairName signature timestamp).Header.Get "X-API-Timestamp"
        = some timestamp ∧
      (signedRequest pairName signature timestamp).Header.Get "X-API-Signature"
        = some signature := by
  refine ⟨?_, ?_, ?_, ?_⟩
  · rw [getExchangeRate_recorded]
  · rw [getExchangeRate_recorded]
  · rw [getExchangeRate_recorded]
  · intro signature timestamp
    refine ⟨rfl, ?_, ?_, ?_⟩
    · simp [signedRequest, String.append_assoc]
    · simp [signedRequest, Header.Get]
    · simp [signedRequest, Header.Get]

/-- C4, at a clock that advances between readings: the one request sent
carries the timestamp of the first reading, 12:00:05, and the signature of
that timestamp; the next reading would format to 12:00:06. -/
theorem getExchangeRate_request_witness :
    tickLib.Format (tickLib.UTC ((tickingEnv (answering 200 bodyExample)).Now 1).1) RFC3339
      = "2024-01-01T12:00:06Z" ∧
    signRequest tickLib "2024-01-01T12:00:05Z" (endpoint ++ "EURPLN") ""
        (PrivateKey.rsa sampleKey) = ("wUOo", none) ∧
    (getExchangeRate tickLib (recordingOver (tickingEnv (answering 200 bodyExample))) "EURPLN"
        sampleKey (0, [])).2.2
      = [{ Method := "GET",
           URL := "https://api.walutomat.pl/api/v2.0.0/direct_fx/rates?currencyPair=EURPLN",
           Header := [("X-API-Key", ""), ("X-API-Signature", "wUOo"),
                      ("X-API-Timestamp", "2024-01-01T12:00:05Z")] }] :=
  ⟨by decide, by decide,
   (getExchangeRate_request tickLib (tickingEnv (answering 200 bodyExample)) "EURPLN"
      sampleKey 0).1.trans (by decide)⟩

/-- When signing, request creation, transport and reading succeed, the
body decodes without error to `dec`, and `dec.Result.Ts` parses as RFC3339 to
the instant `t`, `getExchangeRate` returns no error and the record with
timestamp `t`, the decoded currency pair and the decoded buy and sell
rates. -/
theorem getExchangeRate_of_decoded {σ : Type} (lib : Lib) (env : Env σ) (pairName : String)
    (key : RSAPrivateKey) (w w1 : σ) (signature : String) (resp : HttpResponse)
    (dec : Response) (t : Time)
    (hsig : signRequest lib (lib.Format (lib.UTC (env.Now w).1) RFC3339) (endpoint ++ pairName)
              "" (PrivateKey.rsa key) = (signature, none))
    (hurl : lib.ParseURLError (urlBase ++ endpoint ++ pairName) = none)
    (hdo : env.Do (signedRequest pairName signature
              (lib.Format (lib.UTC (env.Now w).1) RFC3339)) (env.Now w).2 = (Except.ok resp, w1))
    (hread : resp.Body.err = none)
    (hjson : lib.Unmarshal resp.Body.data = (dec, none))
    (htime : lib.Parse RFC3339 dec.Result.Ts = (t, none)) :
    getExchangeRate lib env pairName key w
      = (({ Timestamp := t, CurrencyPair := dec.Result.CurrencyPair,
            BuyRate := dec.Result.BuyRate, SellRate := dec.Result.SellRate }, none), w1) := by
  rw [getExchangeRate_signed lib env pairName key w signature hsig hurl, hdo]
  simp [ReadAll, hread, hjson, htime]

/-- When signing, request creation, transport and reading succeed and the
decoder rejects the body with error `e`, `getExchangeRate` returns the zero
`CurrencyRate` and `e` (after printing the diagnostic); it does not return
success. -/
theorem getExchangeRate_of_decode_failure {σ : Type} (lib : Lib) (env : Env σ) (pairName : String)
    (key : RSAPrivateKey) (w w1 : σ) (signature : String) (resp : HttpResponse)
    (dec : Response) (e : Error)
    (hsig : signRequest lib (lib.Format (lib.UTC (env.Now w).1) RFC3339) (endpoint ++ pairName)
              "" (PrivateKey.rsa key) = (signature, none))
    (hurl : lib.ParseURLError (urlBase ++ endpoint ++ pairName) = none)
    (hdo : env.Do (signedRequest pairName signature
              (lib.Format (lib.UTC (env.Now w).1) RFC3339)) (env.Now w).2 = (Except.ok resp, w1))
    (hread : resp.Body.err = none)
    (hjson : lib.Unmarshal resp.Body.data = (dec, some e)) :
    getExchangeRate lib env pairName key w
      = ((CurrencyRate.zero, some e), env.Println "Error unmarshalling JSON:" e w1) := by
  rw [getExchangeRate_signed lib env pairName key w signature hsig hurl, hdo]
  simp [ReadAll, hread, hjson]

/-- When signing, request creation, transport, reading and decoding
succeed and the decoded `Result.Ts` is rejected by the RFC3339 time parser
with error `e`, `getExchangeRate` returns the zero `CurrencyRate` and `e`
(after printing the diagnostic), whatever the decoded rates are. -/
theorem getExchangeRate_of_time_failure {σ : Type} (lib : Lib) (env : Env σ) (pairName : String)
    (key : RSAPrivateKey) (w w1 : σ) (signature : String) (resp : HttpResponse)
    (dec : Response) (t : Time) (e : Error)
    (hsig : signRequest lib (lib.Format (lib.UTC (env.Now w).1) RFC3339) (endpoint ++ pairName)
              "" (PrivateKey.rsa key) = (signature, none))
    (hurl : lib.ParseURLError (urlBase ++ endpoint ++ pairName) = none)
    (hdo : env.Do (signedRequest pairName signature
              (lib.Format (lib.UTC (env.Now w).1) RFC3339)) (env.Now w).2 = (Except.ok resp, w1))
    (hread : resp.Body.err = none)
    (hjson : lib.Unmarshal resp.Body.data = (dec, none))
    (htime : lib.Parse RFC3339 dec.Result.Ts = (t, some e)) :
    getExchangeRate lib env pairName key w
      = ((CurrencyRate.zero, some e), env.Println "Error parsing timestamp:" e w1) := by
  rw [getExchangeRate_signed lib env pairName key w signature hsig hurl, hdo]
  simp [ReadAll, hread, hjson, htime]


/-- C9: two surroundings that differ at most in the status codes of the
responses their transports return make `getExchangeRate` return the same
record or error and leave the same state; and once signing and request
creation have succeeded, the error returned is the first failure among
transport, body read, JSON decoding and timestamp parsing, so a status code
alone produces none. -/
theorem getExchangeRate_status_irrelevant {σ : Type} (lib : Lib) (env env1 : Env σ)
    (pairName : String) (key : RSAPrivateKey) (w : σ)
    (hnow : env1.Now = env.Now) (hprint : env1.Println = env.Println)
    (hdo : ∀ req w, sameUpToStatus (env.Do req w) (env1.Do req w)) :
    getExchangeRate lib env1 pairName key w = getExchangeRate lib env pairName key w ∧
    ∀ signature,
      signRequest lib (lib.Format (lib.UTC (env.Now w).1) RFC3339) (endpoint ++ pairName) ""
          (PrivateKey.rsa key) = (signature, none) →
      lib.ParseURLError (urlBase ++ endpoint ++ pairName) = none →
      (getExchangeRate lib env pairName key w).1.2
        = responseError lib (env.Do (signedRequest pairName signature
            (lib.Format (lib.UTC (env.Now w).1) RFC3339)) (env.Now w).2).1 := by
  constructor
  · cases hs : signRequest lib (lib.Format (lib.UTC (env.Now w).1) RFC3339)
        (endpoint ++ pairName) "" (PrivateKey.rsa key) with
    | mk signature err =>
      cases err with
      | some e => simp [getExchangeRate, hnow, hprint, hs]
      | none =>
        cases hu : lib.ParseURLError (urlBase ++ endpoint ++ pairName) with
        | some e => simp [getExchangeRate, hnow, hprint, hs, NewRequest, hu]
        | none =>
          have hs1 : signRequest lib (lib.Format (lib.UTC (env1.Now w).1) RFC3339)
              (endpoint ++ pairName) "" (PrivateKey.rsa key) = (signature, none) := by
            rw [hnow]; exact hs
          rw [getExchangeRate_signed lib env pairName key w signature hs hu,
            getExchangeRate_signed lib env1 pairName key w signature hs1 hu]
          have h := hdo (signedRequest pairName signature
            (lib.Format (lib.UTC (env.Now w).1) RFC3339)) (env.Now w).2
          rw [hnow, hprint]
          revert h
          generalize env.Do (signedRequest pairName signature
            (lib.Format (lib.UTC (env.Now w).1) RFC3339)) (env.Now w).2 = r
          generalize env1.Do (signedRequest pairName signature
            (lib.Format (lib.UTC (env.Now w).1) RFC3339)) (env.Now w).2 = r1
          obtain ⟨a, s⟩ := r
          obtain ⟨a1, s1⟩ := r1
          rintro ⟨hst, hm⟩
          simp only at hst
          subst hst
          cases a with
          | error e =>
            cases a1 with
            | error e1 =>
              simp only at hm
              subst hm
              rfl
            | ok y => exact absurd hm (by simp)
          | ok x =>
            cases a1 with
            | error e1 => exact absurd hm (by simp)
            | ok y =>
              simp only at hm
              simp only [hm]
  · intro signature hs hu
    rw [getExchangeRate_signed lib env pairName key w signature hs hu]
    generalize env.Do (signedRequest pairName signature
      (lib.Format (lib.UTC (env.Now w).1) RFC3339)) (env.Now w).2 = r
    obtain ⟨a, s⟩ := r
    cases a with
    | error e => rfl
    | ok resp =>
      simp only [responseError, ReadAll]
      cases hr : resp.Body.err with
      | some e => rfl
      | none =>
        simp only []
        cases hj : lib.Unmarshal resp.Body.data with
        | mk dec jerr =>
          cases jerr with
          | some e => rfl
          | none =>
            simp only []
            cases ht : lib.Parse RFC3339 dec.Result.Ts with
            | mk t terr =>
              cases terr with
              | some e => rfl
              | none => rfl

/-- C9, at two transports that answer the example body with status 200 and
with status 500. -/
theorem getExchangeRate_status_irrelevant_witness :
    (∀ req w, sameUpToStatus ((recordingEnv sampleNow (answering 200 bodyExample)).Do req w)
        ((recordingEnv sampleNow (answering 500 bodyExample)).Do req w)) ∧
    getExchangeRate testLib (recordingEnv sampleNow (answering 500 bodyExample)) "EURPLN"
        sampleKey []
      = getExchangeRate testLib (recordingEnv sampleNow (answering 200 bodyExample)) "EURPLN"
          sampleKey [] ∧
    (getExchangeRate testLib (recordingEnv sampleNow (answering 500 bodyExample)) "EURPLN"
        sampleKey []).1.2 = none :=
  ⟨fun _ _ => ⟨rfl, rfl⟩,
   (getExchangeRate_status_irrelevant testLib (recordingEnv sampleNow (answering 200 bodyExample))
     (recordingEnv sampleNow (answering 500 bodyExample)) "EURPLN" sampleKey [] rfl rfl
     (fun _ _ => ⟨rfl, rfl⟩)).1,
   by decide⟩

/-- C10: two surroundings whose transports return bodies that decode with the
same error and to the same `Result`, whatever the decoded `Success` flags,
make `getExchangeRate` return the same record or error and leave the same
state; in particular a body that decodes with `Success` false and whose
timestamp parses is returned as a record with no error. -/
theorem getExchangeRate_success_ignored {σ : Type} (lib : Lib) (env env1 : Env σ)
    (pairName : String) (key : RSAPrivateKey) (w : σ)
    (hnow : env1.Now = env.Now) (hprint : env1.Println = env.Println)
    (hdo : ∀ req w, sameUpToSuccess lib (env.Do req w) (env1.Do req w)) :
    getExchangeRate lib env1 pairName key w = getExchangeRate lib env pairName key w ∧
    ∀ signature resp w1 res t,
      signRequest lib (lib.Format (lib.UTC (env.Now w).1) RFC3339) (endpoint ++ pairName) ""
          (PrivateKey.rsa key) = (signature, none) →
      lib.ParseURLError (urlBase ++ endpoint ++ pairName) = none →
      env.Do (signedRequest pairName signature
          (lib.Format (lib.UTC (env.Now w).1) RFC3339)) (env.Now w).2 = (Except.ok resp, w1) →
      resp.Body.err = none →
      lib.Unmarshal resp.Body.data = ({ Success := false, Result := res }, none) →
      lib.Parse RFC3339 res.Ts = (t, none) →
      getExchangeRate lib env pairName key w
        = (({ Timestamp := t, CurrencyPair := res.CurrencyPair,
              BuyRate := res.BuyRate, SellRate := res.SellRate }, none), w1) := by
  constructor
  · cases hs : signRequest lib (lib.Format (lib.UTC (env.Now w).1) RFC3339)
        (endpoint ++ pairName) "" (PrivateKey.rsa key) with
    | mk signature err =>
      cases err with
      | some e => simp [getExchangeRate, hnow, hprint, hs]
      | none =>
        cases hu : lib.ParseURLError (urlBase ++ endpoint ++ pairName) with
        | some e => simp [getExchangeRate, hnow, hprint, hs, NewRequest, hu]
        | none =>
          have hs1 : signRequest lib (lib.Format (lib.UTC (env1.Now w).1) RFC3339)
              (endpoint ++ pairName) "" (PrivateKey.rsa key) = (signature, none) := by
            rw [hnow]; exact hs
          rw [getExchangeRate_signed lib env pairName key w signature hs hu,
            getExchangeRate_signed lib env1 pairName key w signature hs1 hu]
          have h := hdo (signedRequest pairName signature
            (lib.Format (lib.UTC (env.Now w).1) RFC3339)) (env.Now w).2
          rw [hnow, hprint]
          revert h
          generalize env.Do (signedRequest pairName signature
            (lib.Format (lib.UTC (env.Now w).1) RFC3339)) (env.Now w).2 = r
          generalize env1.Do (signedRequest pairName signature
            (lib.Format (lib.UTC (env.Now w).1) RFC3339)) (env.Now w).2 = r1
          obtain ⟨a, s⟩ := r
          obtain ⟨a1, s1⟩ := r1
          rintro ⟨hst, hm⟩
          simp only at hst
          subst hst
          cases a with
          | error e =>
            cases a1 with
            | error e1 =>
              simp only at hm
              subst hm
              rfl
            | ok y => exact absurd hm (by simp)
          | ok x =>
            cases a1 with
            | error e1 => exact absurd hm (by simp)
            | ok y =>
              obtain ⟨hread, herr, hres⟩ := hm
              simp only [ReadAll]
              rw [← hread]
              cases hr : x.Body.err with
              | some e => rfl
              | none =>
                simp only []
                cases hjx : lib.Unmarshal x.Body.data with
                | mk dx ex =>
                  cases hjy : lib.Unmarshal y.Body.data with
                  | mk dy ey =>
                    rw [hjx, hjy] at herr hres
                    simp only at herr hres
                    subst herr
                    cases ex with
                    | some e => rfl
                    | none =>
                      simp only []
                      rw [hres]
  · intro signature resp w1 res t hs hu hd hread hjson htime
    rw [getExchangeRate_signed lib env pairName key w signature hs hu, hd]
    simp [ReadAll, hread, hjson, htime]

/-- C10, at two transports that answer the example body with `success` true
and with `success` false: the second yields the record of the first. -/
theorem getExchangeRate_success_ignored_witness :
    testLib.Unmarshal (bytesOf bodyNotSuccess)
      = (decodedExample false "2024-01-01T12:00:00Z", none) ∧
    getExchangeRate testLib (recordingEnv sampleNow (answering 200 bodyNotSuccess)) "EURPLN"
        sampleKey []
      = getExchangeRate testLib (recordingEnv sampleNow (answering 200 bodyExample)) "EURPLN"
          sampleKey [] ∧
    (getExchangeRate testLib (recordingEnv sampleNow (answering 200 bodyNotSuccess)) "EURPLN"
        sampleKey []).1
      = ({ Timestamp := ⟨63839707200, 0, 0⟩, CurrencyPair := "EURPLN",
           BuyRate := ⟨0x4011346dc5d63886⟩, SellRate := ⟨0x40114793dd97f62b⟩ }, none) :=
  ⟨by decide,
   (getExchangeRate_success_ignored testLib (recordingEnv sampleNow (answering 200 bodyExample))
     (recordingEnv sampleNow (answering 200 bodyNotSuccess)) "EURPLN" sampleKey [] rfl rfl
     (fun _ _ => ⟨rfl, by decide, by decide, by decide⟩)).1,
   by decide⟩


/-! ## The decoders -/

/-- Which field each JSON name of the program selects. -/
theorem matchField_names :
    matchField responseFields "success" = some "success" ∧
    matchField responseFields "result" = some "result" ∧
    matchField resultFields "ts" = some "ts" ∧
    matchField resultFields "currencyPair" = some "currencyPair" ∧
    matchField resultFields "buyRate" = some "buyRate" ∧
    matchField resultFields "sellRate" = some "sellRate" := by
  decide

/-- A JSON number begins with a minus sign or a digit. -/
theorem isJSONNumber_head (s : String) (h : isJSONNumber s = true) :
    ∃ c rest, s.data = c :: rest ∧ (c.toNat = 45 ∨ (48 ≤ c.toNat ∧ c.toNat ≤ 57)) := by
  unfold isJSONNumber at h
  cases hd : s.data with
  | nil => simp [hd, scanNumber] at h
  | cons c rest =>
    refine ⟨c, rest, rfl, ?_⟩
    by_contra hne
    have h45 : ¬ c.toNat = 45 := fun h1 => hne (Or.inl h1)
    have hdig : ¬ (48 ≤ c.toNat ∧ c.toNat ≤ 57) := fun h1 => hne (Or.inr h1)
    simp [hd, scanNumber, h45, hdig] at h

/-- The text of a quoted rate that is a JSON number and that the float parser
accepts is stored as its `float64`. -/
theorem literalStoreFloat_number (s field : String) (cur : Float64) (saved : Option Error)
    (hnum : isJSONNumber s = true) (hok : (ParseFloat s).2 = none) :
    literalStoreFloat s field cur saved = Except.ok ((ParseFloat s).1, saved) := by
  obtain ⟨c, rest, hd, hc⟩ := isJSONNumber_head s hnum
  have hpf : ParseFloat s = ((ParseFloat s).1, none) := Prod.ext rfl hok
  unfold literalStoreFloat
  rw [hd]
  simp only []
  have h1 : ¬ c.toNat = 110 := by omega
  have h2 : ¬ (c.toNat = 116 ∨ c.toNat = 102) := by omega
  have h3 : ¬ c.toNat = 34 := by omega
  have h4 : ¬ (c.toNat ≠ 45 ∧ ¬ (48 ≤ c.toNat ∧ c.toNat ≤ 57)) := by omega
  rw [if_neg h1, if_neg h2, if_neg h3, if_neg h4, hpf]

/-- A value of the expected shape whose rates are JSON numbers the float
parser accepts decodes, without error, to its own fields. -/
theorem decodeResponse_expectedShape (success : Bool) (ts cp buy sell : String)
    (hbuy : isJSONNumber buy = true) (hbuyok : (ParseFloat buy).2 = none)
    (hsell : isJSONNumber sell = true) (hsellok : (ParseFloat sell).2 = none) :
    decodeResponse (expectedShape success ts cp buy sell)
      = ({ Success := success,
           Result := { Ts := ts, CurrencyPair := cp, BuyRate := (ParseFloat buy).1,
                       SellRate := (ParseFloat sell).1 } }, none) := by
  obtain ⟨m1, m2, m3, m4, m5, m6⟩ := matchField_names
  simp [expectedShape, decodeResponse, decodeMembers, responseStep, resultStep, m1, m2, m3, m4,
    m5, m6, storeBool, storeString, storeQuotedFloat, Response.zero,
    literalStoreFloat_number _ _ _ _ hbuy hbuyok, literalStoreFloat_number _ _ _ _ hsell hsellok]

/-- Saving an error leaves an error saved. -/
theorem saveError_ne_none (saved : Option Error) (e : Error) : saveError saved e ≠ none := by
  cases saved <;> simp [saveError]

/-- Storing a string keeps a saved error. -/
theorem storeString_sticky (v : JValue) (field cur : String) (saved : Option Error)
    (h : saved ≠ none) : (storeString v field cur saved).2 ≠ none := by
  cases v <;> simp [storeString, h, saveError_ne_none]

/-- Storing a boolean keeps a saved error. -/
theorem storeBool_sticky (v : JValue) (field : String) (cur : Bool) (saved : Option Error)
    (h : saved ≠ none) : (storeBool v field cur saved).2 ≠ none := by
  cases v <;> simp [storeBool, h, saveError_ne_none]

/-- Storing the text of a quoted rate keeps a saved error. -/
theorem literalStoreFloat_sticky (s field : String) (cur : Float64) (saved : Option Error)
    (h : saved ≠ none) : failed (literalStoreFloat s field cur saved) := by
  unfold literalStoreFloat
  cases s.data with
  | nil => simp [failed, saveError_ne_none]
  | cons c rest =>
    simp only []
    split_ifs
    · simpa [failed] using h
    · simp [failed, saveError_ne_none]
    · simp [failed, saveError_ne_none]
    · simp [failed, saveError_ne_none]
    · simp [failed]
    · simp [failed]
    · cases hp : ParseFloat s with
      | mk x err =>
        cases err with
        | none => simpa [failed] using h
        | some e => simp [failed, saveError_ne_none]

/-- The text of a quoted rate, other than `null`, that the float parser
rejects or that does not begin as a number makes the decoding fail. -/
theorem literalStoreFloat_failed (s field : String) (cur : Float64) (saved : Option Error)
    (hnull : s ≠ "null") (hbad : (ParseFloat s).2 ≠ none ∨ beginsNumber s = false) :
    failed (literalStoreFloat s field cur saved) := by
  unfold literalStoreFloat
  unfold beginsNumber at hbad
  cases hd : s.data with
  | nil => simp [failed, saveError_ne_none]
  | cons c rest =>
    rw [hd] at hbad
    simp only []
    split_ifs with h1 h2 h3 h4 h5
    · simp [failed, saveError_ne_none]
    · simp [failed, saveError_ne_none]
    · simp [failed, saveError_ne_none]
    · simp [failed]
    · simp [failed]
    · cases hp : ParseFloat s with
      | mk x err =>
        cases err with
        | none =>
          rcases hbad with hb | hb
          · rw [hp] at hb; simp at hb
          · exfalso
            simp only [isDigit, Bool.or_eq_false_iff, decide_eq_false_iff_not] at hb
            exact h5 ⟨hb.1, hb.2⟩
        | some e => simp [failed, saveError_ne_none]

/-- Storing a quoted rate keeps a saved error. -/
theorem storeQuotedFloat_sticky (v : JValue) (field : String) (cur : Float64)
    (saved : Option Error) (h : saved ≠ none) :
    failed (storeQuotedFloat v field cur saved) := by
  cases v with
  | string s => simpa [storeQuotedFloat] using literalStoreFloat_sticky s field cur saved h
  | null => simpa [storeQuotedFloat, failed] using h
  | bool b => simp [storeQuotedFloat, failed, saveError_ne_none]
  | number l => simp [storeQuotedFloat, failed, saveError_ne_none]
  | array xs => simp [storeQuotedFloat, failed, saveError_ne_none]
  | object ms => simp [storeQuotedFloat, failed, saveError_ne_none]

/-- A failed store of a rate is a failed step. -/
theorem rateStep_failed (r : Except Error (Float64 × Option Error))
    (f : Float64 → ResponseResult) (h : failed r) :
    failed (match r with
      | Except.error e => (Except.error e : Except Error (ResponseResult × Option Error))
      | Except.ok (x, saved) => Except.ok (f x, saved)) := by
  cases r with
  | error e => simp [failed]
  | ok p => obtain ⟨x, saved⟩ := p; simpa [failed] using h

/-- A step of the `result` object keeps a saved error. -/
theorem resultStep_sticky (st : ResponseResult × Option Error) (m : String × JValue)
    (h : st.2 ≠ none) : failed (resultStep st m) := by
  unfold resultStep
  cases matchField resultFields m.1 with
  | none => simpa [failed] using h
  | some f =>
    simp only []
    split_ifs
    · simpa [failed] using storeString_sticky m.2 _ _ st.2 h
    · simpa [failed] using storeString_sticky m.2 _ _ st.2 h
    · exact rateStep_failed _ _ (storeQuotedFloat_sticky m.2 _ _ st.2 h)
    · exact rateStep_failed _ _ (storeQuotedFloat_sticky m.2 _ _ st.2 h)

/-- Once an error is saved, the decoding of the remaining members fails. -/
theorem decodeMembers_sticky {α : Type}
    (step : (α × Option Error) → String × JValue → Except Error (α × Option Error))
    (hstep : ∀ st m, st.2 ≠ none → failed (step st m)) (ms : List (String × JValue)) :
    ∀ st : α × Option Error, st.2 ≠ none → failed (decodeMembers step st ms) := by
  induction ms with
  | nil => intro st h; simpa [decodeMembers, failed] using h
  | cons m rest ih =>
    intro st h
    have h1 := hstep st m h
    unfold decodeMembers
    cases hs : step st m with
    | error e => simp [failed]
    | ok st1 =>
      rw [hs] at h1
      exact ih st1 (by simpa [failed] using h1)

/-- A member whose step fails from every state makes the decoding of the
members fail. -/
theorem decodeMembers_failed_of_mem {α : Type}
    (step : (α × Option Error) → String × JValue → Except Error (α × Option Error))
    (hstep : ∀ st m, st.2 ≠ none → failed (step st m)) (m : String × JValue)
    (hm : ∀ st, failed (step st m)) (ms : List (String × JValue)) :
    ∀ st : α × Option Error, m ∈ ms → failed (decodeMembers step st ms) := by
  induction ms with
  | nil => intro st h; simp at h
  | cons m1 rest ih =>
    intro st h
    unfold decodeMembers
    cases hs : step st m1 with
    | error e => simp [failed]
    | ok st1 =>
      rcases List.mem_cons.mp h with heq | hin
      · have h1 := hm st
        rw [heq, hs] at h1
        exact decodeMembers_sticky step hstep rest st1 (by simpa [failed] using h1)
      · exact ih st1 hin

/-- A rate member holding a text, other than `null`, that the float parser
rejects or that does not begin as a number makes its step fail. -/
theorem resultStep_rate_failed (st : ResponseResult × Option Error) (k s : String)
    (hk : k = "buyRate" ∨ k = "sellRate") (hnull : s ≠ "null")
    (hbad : (ParseFloat s).2 ≠ none ∨ beginsNumber s = false) :
    failed (resultStep st (k, JValue.string s)) := by
  obtain ⟨_, _, _, _, m5, m6⟩ := matchField_names
  rcases hk with rfl | rfl
  · simp only [resultStep, m5, if_true, if_false]
    exact rateStep_failed _ _ (by
      simpa [storeQuotedFloat] using literalStoreFloat_failed s _ _ st.2 hnull hbad)
  · simp only [resultStep, m6, if_true, if_false]
    exact rateStep_failed _ _ (by
      simpa [storeQuotedFloat] using literalStoreFloat_failed s _ _ st.2 hnull hbad)

/-- A step of the top-level object keeps a saved error. -/
theorem responseStep_sticky (st : Response × Option Error) (m : String × JValue)
    (h : st.2 ≠ none) : failed (responseStep st m) := by
  unfold responseStep
  cases matchField responseFields m.1 with
  | none => simpa [failed] using h
  | some f =>
    simp only []
    split_ifs
    · simpa [failed] using storeBool_sticky m.2 _ _ st.2 h
    · cases hv : m.2 with
      | object rs =>
        simp only []
        have h1 := decodeMembers_sticky resultStep resultStep_sticky rs (st.1.Result, st.2) h
        cases hd : decodeMembers resultStep (st.1.Result, st.2) rs with
        | error e => simp [failed]
        | ok p => rw [hd] at h1; simpa [failed] using h1
      | null => simpa [failed] using h
      | bool b => simp [failed, saveError_ne_none]
      | number l => simp [failed, saveError_ne_none]
      | string s => simp [failed, saveError_ne_none]
      | array xs => simp [failed, saveError_ne_none]

/-- A `result` object whose decoding fails makes the step of the top-level
object fail. -/
theorem responseStep_result_failed (st : Response × Option Error)
    (rs : List (String × JValue))
    (h : ∀ st1, failed (decodeMembers resultStep st1 rs)) :
    failed (responseStep st ("result", JValue.object rs)) := by
  obtain ⟨_, m2, _, _, _, _⟩ := matchField_names
  simp only [responseStep, m2, if_true, if_false]
  have h1 := h (st.1.Result, st.2)
  cases hd : decodeMembers resultStep (st.1.Result, st.2) rs with
  | error e => simp [failed]
  | ok p => rw [hd] at h1; simpa [failed] using h1

/-- A body whose `result` object has a rate member holding a text, other than
`null`, that the float parser rejects or that does not begin as a number is
rejected by the decoder. -/
theorem decodeResponse_bad_rate (ms rs : List (String × JValue)) (k s : String)
    (hres : ("result", JValue.object rs) ∈ ms) (hrate : (k, JValue.string s) ∈ rs)
    (hk : k = "buyRate" ∨ k = "sellRate") (hnull : s ≠ "null")
    (hbad : (ParseFloat s).2 ≠ none ∨ beginsNumber s = false) :
    (decodeResponse (JValue.object ms)).2 ≠ none := by
  have hinner : ∀ st1, failed (decodeMembers resultStep st1 rs) := fun st1 =>
    decodeMembers_failed_of_mem resultStep resultStep_sticky (k, JValue.string s)
      (fun st => resultStep_rate_failed st k s hk hnull hbad) rs st1 hrate
  have houter := decodeMembers_failed_of_mem responseStep responseStep_sticky
    ("result", JValue.object rs) (fun st => responseStep_result_failed st rs hinner) ms
    (Response.zero, none) hres
  simp only [decodeResponse]
  cases hd : decodeMembers responseStep (Response.zero, none) ms with
  | error e => simp
  | ok p => rw [hd] at houter; simpa [failed] using houter

/-! ## The texts the time parser accepts -/

/-- A skipped character stood at the head of the text. -/
theorem skipChar_ok (v : String) (c : Char) (cs r : List Char)
    (h : skipChar v c cs = Except.ok r) : cs = c :: r := by
  unfold skipChar at h
  cases cs with
  | nil => simp at h
  | cons d rest =>
    simp only at h
    split_ifs at h with hd
    · simp at h; rw [hd, h]

/-- A numeric element was read when `getnum` read it. -/
theorem numElem_ok (v e : String) (fixed : Bool) (cs : List Char) (p : Nat × List Char)
    (h : numElem v e fixed cs = Except.ok p) : getnum cs fixed = some p := by
  unfold numElem at h
  split at h
  · rename_i r hr
    simp at h; rw [hr, h]
  · simp at h

/-- A number of fixed width is two digits. -/
theorem getnum_fixed (cs : List Char) (n : Nat) (r : List Char)
    (h : getnum cs true = some (n, r)) :
    ∃ a b, cs = a :: b :: r ∧ isDigit a = true ∧ isDigit b = true ∧ n = twoDigits a b := by
  unfold getnum at h
  match cs, h with
  | [c0], h => simp at h
  | c0 :: c1 :: rest, h =>
    simp only at h
    split_ifs at h with h0 h1
    · simp at h
      exact ⟨c0, c1, by rw [h.2], by simpa using h0, h1, by rw [← h.1]; rfl⟩

/-- A number of free width is two digits, or one digit that no digit
follows. -/
theorem getnum_free (cs : List Char) (n : Nat) (r : List Char)
    (h : getnum cs false = some (n, r)) :
    (∃ a b, cs = a :: b :: r ∧ isDigit a = true ∧ isDigit b = true ∧ n = twoDigits a b) ∨
    (∃ a, cs = a :: r ∧ isDigit a = true ∧ n = a.toNat - 48 ∧
      (r = [] ∨ ∃ c t, r = c :: t ∧ isDigit c = false)) := by
  unfold getnum at h
  match cs, h with
  | [c0], h =>
    simp at h
    exact Or.inr ⟨c0, by rw [h.2.2], h.1, h.2.1.symm, Or.inl h.2.2⟩
  | c0 :: c1 :: rest, h =>
    simp only at h
    split_ifs at h with h0 h1
    · simp at h
      exact Or.inl ⟨c0, c1, by rw [h.2], by simpa using h0, h1, by rw [← h.1]; rfl⟩
    · simp at h
      exact Or.inr ⟨c0, by rw [← h.2], by simpa using h0, h.1.symm,
        Or.inr ⟨c1, rest, h.2.symm, by simpa using h1⟩⟩

/-- A zone that the parser reads to the end of the text has the accepted
form. -/
theorem parseZone_ok (v : String) (z : List Char) (off : Int)
    (h : parseZone v z = Except.ok (off, [])) : zoneShape z = true := by
  unfold parseZone at h
  split at h
  · rename_i rest
    simp at h
    simp [zoneShape, h.2]
  · rename_i sign h0 h1 c m0 m1 rest hZ
    by_cases a0 : isDigit h0 = true <;> by_cases a1 : isDigit h1 = true <;>
      by_cases b0 : isDigit m0 = true <;> by_cases b1 : isDigit m1 = true <;>
      by_cases hc : c = ':' <;>
      simp [getnum, a0, a1, b0, b1, hc] at h
    all_goals (try (split_ifs at h <;> simp at h))
    all_goals
      rename_i hr hm hs hneg
      obtain ⟨_, rfl⟩ := h
      have hsg : sign = '+' ∨ sign = '-' := by
        by_cases p : sign = '+'
        · exact Or.inl p
        · by_cases q : sign = '-'
          · exact Or.inr q
          · exact absurd ⟨p, q⟩ hs
      have hm2 : (m0.toNat - 48) * 10 + (m1.toNat - 48) ≤ 60 := by omega
      have hr2 : (h0.toNat - 48) * 10 + (h1.toNat - 48) ≤ 24 := by
        by_contra hcon
        exact hr ⟨by omega, hm2⟩
      simp [zoneShape, twoDigits, a0, a1, b0, b1, hc, hsg, hm2, hr2]
  · simp at h

/-- Every text the time parser accepts has the accepted form. -/
theorem parseRFC3339_ok (value : String) (t : Time) (h : parseRFC3339 value = Except.ok t) :
    timeShape value = true := by
  unfold parseRFC3339 at h
  simp only at h
  split at h
  · rename_i y0 y1 y2 y3 r0 hcs
    split at h
    · cases h
    rename_i hy
    simp only [not_not] at hy
    split at h
    · cases h
    rename_i r1 h1
    split at h
    · cases h
    rename_i month r2 h2
    split at h
    · cases h
    rename_i hmonth
    split at h
    · cases h
    rename_i r3 h3
    split at h
    · cases h
    rename_i day r4 h4
    split at h
    · cases h
    rename_i r5 h5
    split at h
    · cases h
    rename_i hour r6 h6
    split at h
    · cases h
    rename_i hhour
    split at h
    · cases h
    rename_i r7 h7
    split at h
    · cases h
    rename_i min r8 h8
    split at h
    · cases h
    rename_i hmin
    split at h
    · cases h
    rename_i r9 h9
    split at h
    · cases h
    rename_i sec r10 h10
    split at h
    · cases h
    rename_i hsec
    split at h
    · cases h
    rename_i offset r11 h11
    split at h
    · cases h
    rename_i hextra
    split at h
    · cases h
    rename_i hday
    clear h
    simp only [not_not] at hextra
    subst hextra
    have e1 := skipChar_ok _ _ _ _ h1
    obtain ⟨m0, m1, e2, dm0, dm1, rfl⟩ := getnum_fixed _ _ _ (numElem_ok _ _ _ _ _ h2)
    have e3 := skipChar_ok _ _ _ _ h3
    obtain ⟨d0, d1, e4, dd0, dd1, rfl⟩ := getnum_fixed _ _ _ (numElem_ok _ _ _ _ _ h4)
    have e5 := skipChar_ok _ _ _ _ h5
    have e6 := getnum_free _ _ _ (numElem_ok _ _ _ _ _ h6)
    have e7 := skipChar_ok _ _ _ _ h7
    obtain ⟨n0, n1, e8, dn0, dn1, rfl⟩ := getnum_fixed _ _ _ (numElem_ok _ _ _ _ _ h8)
    have e9 := skipChar_ok _ _ _ _ h9
    obtain ⟨s0, s1, e10, ds0, ds1, rfl⟩ := getnum_fixed _ _ _ (numElem_ok _ _ _ _ _ h10)
    have ez := parseZone_ok _ _ _ h11
    clear h1 h2 h3 h4 h5 h6 h7 h8 h9 h10 h11
    subst e10 e9 e8 e7
    have hm1 : 1 ≤ twoDigits m0 m1 ∧ twoDigits m0 m1 ≤ 12 := by omega
    have hd1 : 1 ≤ twoDigits d0 d1 ∧
        twoDigits d0 d1 ≤ daysIn (twoDigits m0 m1) (digitsValue [y0, y1, y2, y3]) := by omega
    have hn : twoDigits n0 n1 < 60 := by omega
    have hs : twoDigits s0 s1 < 60 := by omega
    have hcolon : isDigit ':' = false := by decide
    rcases e6 with ⟨a, b, e6, da, db, rfl⟩ | ⟨a, e6, da, rfl, _⟩
    · subst e6 e5 e4 e3 e2 e1
      have hh : twoDigits a b < 24 := by omega
      simp [timeShape, clockShape, hcs, hy.1, hy.2.1, hy.2.2.1, hy.2.2.2, dm0, dm1, dd0, dd1,
        da, db, dn0, dn1, ds0, ds1, hm1.1, hm1.2, hd1.1, hd1.2, hn, hs, hh, ez]
    · subst e6 e5 e4 e3 e2 e1
      have hh : a.toNat - 48 < 24 := by omega
      simp [timeShape, clockShape, hcs, hy.1, hy.2.1, hy.2.2.1, hy.2.2.2, dm0, dm1, dd0, dd1,
        da, dn0, dn1, ds0, ds1, hm1.1, hm1.2, hd1.1, hd1.2, hn, hs, hh, ez, hcolon]
  · cases h

/-- A text that is not of the accepted form is rejected by `time.Parse` with
the layout RFC3339. -/
theorem timeParse_rejects (ts : String) (h : timeShape ts = false) :
    (timeParse RFC3339 ts).2 ≠ none := by
  unfold timeParse
  rw [if_pos rfl]
  cases hp : parseRFC3339 ts with
  | ok t => rw [parseRFC3339_ok ts t hp] at h; cases h
  | error e => simp

/-- A zone of the accepted form is read to the end of the text. -/
theorem parseZone_of_shape (v : String) (z : List Char) (h : zoneShape z = true) :
    ∃ off, parseZone v z = Except.ok (off, []) := by
  unfold zoneShape at h
  split at h
  · rename_i c
    simp at h
    subst h
    exact ⟨0, rfl⟩
  · rename_i sg a b c d e
    simp at h
    obtain ⟨⟨⟨⟨⟨⟨⟨hsg, da⟩, db⟩, hc⟩, dd⟩, de⟩, hr⟩, hm⟩ := h
    subst hc
    have hr2 : ¬ 24 < (a.toNat - 48) * 10 + (b.toNat - 48) := by unfold twoDigits at hr; omega
    have hm2 : ¬ 60 < (d.toNat - 48) * 10 + (e.toNat - 48) := by unfold twoDigits at hm; omega
    refine ⟨(if sg = '-' then -1 else 1) *
      (((twoDigits a b * 60 + twoDigits d e) * 60 : Nat) : Int), ?_⟩
    rcases hsg with rfl | rfl
    · simp [parseZone, getnum, da, db, dd, de, hr2, hm2, twoDigits]
    · simp [parseZone, getnum, da, db, dd, de, hr2, hm2, twoDigits]
  · cases h

/-- Every text of the accepted form is parsed. -/
theorem parseRFC3339_of_shape (value : String) (h : timeShape value = true) (e : Error) :
    parseRFC3339 value ≠ Except.error e := by
  unfold timeShape at h
  intro he
  split at h
  · rename_i y0 y1 y2 y3 c4 m0 m1 c7 d0 d1 c10 h0 rest hcs
    simp only [Bool.and_eq_true, decide_eq_true_eq] at h
    obtain ⟨⟨⟨⟨⟨⟨⟨⟨⟨⟨⟨⟨⟨⟨⟨⟨a0, a1⟩, a2⟩, a3⟩, rfl⟩, b0⟩, b1⟩, rfl⟩, e0⟩, e1⟩, rfl⟩, f0⟩,
      hm1⟩, hm2⟩, hd1⟩, hd2⟩, h⟩ := h
    have hm3 : ¬ (twoDigits m0 m1 = 0 ∨ 12 < twoDigits m0 m1) := by omega
    have hd3 : ¬ (twoDigits d0 d1 < 1 ∨
        daysIn (twoDigits m0 m1) (digitsValue [y0, y1, y2, y3]) < twoDigits d0 d1) := by omega
    split at h
    · rename_i h1 t
      split at h
      · rename_i f1
        unfold clockShape at h
        split at h
        · rename_i c0 n0 n1 c3 s0 s1 z
          simp only [Bool.and_eq_true, decide_eq_true_eq] at h
          obtain ⟨⟨⟨⟨⟨⟨⟨⟨⟨rfl, g0⟩, g1⟩, rfl⟩, k0⟩, k1⟩, hh⟩, hn⟩, hs⟩, hz⟩ := h
          obtain ⟨off, hoff⟩ := parseZone_of_shape value _ hz
          have hh2 : ¬ 24 ≤ twoDigits h0 h1 := by omega
          have hn2 : ¬ 60 ≤ twoDigits n0 n1 := by omega
          have hs2 : ¬ 60 ≤ twoDigits s0 s1 := by omega
          unfold twoDigits at hm3 hd3 hh2 hn2 hs2
          unfold parseRFC3339 at he
          simp only [hcs, skipChar, numElem, getnum, a0, a1, a2, a3, b0, b1, e0, e1, f0, f1, g0,
            g1, k0, k1, hm3, hd3, hh2, hn2, hs2, hoff, if_true, if_false, and_self,
            not_true_eq_false, not_false_eq_true, ne_eq] at he
          cases he
        · cases h
      · rename_i f1
        unfold clockShape at h
        split at h
        · rename_i c0 n0 n1 c3 s0 s1 z hrest
          simp only [Bool.and_eq_true, decide_eq_true_eq] at h
          obtain ⟨⟨⟨⟨⟨⟨⟨⟨⟨rfl, g0⟩, g1⟩, rfl⟩, k0⟩, k1⟩, hh⟩, hn⟩, hs⟩, hz⟩ := h
          obtain ⟨off, hoff⟩ := parseZone_of_shape value _ hz
          have hh2 : ¬ 24 ≤ h0.toNat - 48 := by omega
          have hn2 : ¬ 60 ≤ twoDigits n0 n1 := by omega
          have hs2 : ¬ 60 ≤ twoDigits s0 s1 := by omega
          have hcolon : isDigit ':' = false := by decide
          unfold twoDigits at hm3 hd3 hn2 hs2
          unfold parseRFC3339 at he
          simp only [List.cons.injEq] at hrest
          obtain ⟨rfl, rfl⟩ := hrest
          simp only [hcs, skipChar, numElem, getnum, a0, a1, a2, a3, b0, b1, e0, e1, f0, hcolon,
            g0, g1, k0, k1, hm3, hd3, hh2, hn2, hs2, hoff, if_true, if_false, and_self,
            not_true_eq_false, not_false_eq_true, ne_eq, Bool.false_eq_true] at he
          cases he
        · cases h
    · cases h
  · cases h

/-- The time parser accepts a text with the layout RFC3339 exactly when the
text has the accepted form. -/
theorem timeParse_accepts_iff (ts : String) :
    (timeParse RFC3339 ts).2 = none ↔ timeShape ts = true := by
  unfold timeParse
  rw [if_pos rfl]
  cases hp : parseRFC3339 ts with
  | ok t => simpa using parseRFC3339_ok ts t hp
  | error e =>
    simp only [false_iff, Bool.not_eq_true, reduceCtorEq]
    cases hs : timeShape ts with
    | false => rfl
    | true => exact absurd hp (parseRFC3339_of_shape ts hs e)

/-! ## getExchangeRate with the modelled decoders -/

/-- C5: when signing, request creation, transport and reading succeed and the
body is a JSON object of the expected shape whose `ts` has the form the
RFC3339 time parser accepts (`timeShape`) and whose `buyRate` and `sellRate`
are JSON numbers that the float parser converts without error (decimal
numbers in the range of `float64`), `getExchangeRate` returns no error and the
record whose timestamp is the instant parsed from `ts`, whose currency pair is
`currencyPair` and whose rates are the `float64` values of the two texts. -/
theorem getExchangeRate_parses {σ : Type} (lib : Lib) (env : Env σ) (pairName : String)
    (key : RSAPrivateKey) (w w1 : σ) (signature : String) (resp : HttpResponse)
    (success : Bool) (ts cp buy sell : String)
    (hsig : signRequest lib (lib.Format (lib.UTC (env.Now w).1) RFC3339) (endpoint ++ pairName)
              "" (PrivateKey.rsa key) = (signature, none))
    (hurl : lib.ParseURLError (urlBase ++ endpoint ++ pairName) = none)
    (hdo : env.Do (signedRequest pairName signature
              (lib.Format (lib.UTC (env.Now w).1) RFC3339)) (env.Now w).2 = (Except.ok resp, w1))
    (hread : resp.Body.err = none)
    (hshape : parseJSON (resp.Body.data.map UInt8.toNat)
                = some (expectedShape success ts cp buy sell))
    (hts : timeShape ts = true)
    (hbuy : isJSONNumber buy = true) (hbuyok : (ParseFloat buy).2 = none)
    (hsell : isJSONNumber sell = true) (hsellok : (ParseFloat sell).2 = none) :
    getExchangeRate (withDecoders lib) env pairName key w
      = (({ Timestamp := (timeParse RFC3339 ts).1, CurrencyPair := cp,
            BuyRate := (ParseFloat buy).1, SellRate := (ParseFloat sell).1 }, none), w1) := by
  have hjson : (withDecoders lib).Unmarshal resp.Body.data
      = ({ Success := success,
           Result := { Ts := ts, CurrencyPair := cp, BuyRate := (ParseFloat buy).1,
                       SellRate := (ParseFloat sell).1 } }, none) := by
    show jsonUnmarshal resp.Body.data = _
    simp only [jsonUnmarshal, hshape]
    exact decodeResponse_expectedShape success ts cp buy sell hbuy hbuyok hsell hsellok
  have htime1 : (withDecoders lib).Parse RFC3339 ts = ((timeParse RFC3339 ts).1, none) :=
    Prod.ext rfl ((timeParse_accepts_iff ts).mpr hts)
  exact getExchangeRate_of_decoded (withDecoders lib) env pairName key w w1 signature resp _ _
    hsig hurl hdo hread hjson htime1

set_option maxRecDepth 1000000 in
/-- C5, at the body of the parsing example: buy rate 4.3012, sell rate 4.3199,
timestamp 2024-01-01T12:00:00Z (the client's clock reads 12:00:05) and
currency pair EURPLN. -/
theorem getExchangeRate_parses_witness :
    parseJSON ((bytesOf bodyExample).map UInt8.toNat)
      = some (expectedShape true "2024-01-01T12:00:00Z" "EURPLN" "4.3012" "4.3199") ∧
    timeShape "2024-01-01T12:00:00Z" = true ∧
    timeParse RFC3339 "2024-01-01T12:00:00Z" = (⟨63839707200, 0, 0⟩, none) ∧
    ParseFloat "4.3012" = (⟨0x4011346dc5d63886⟩, none) ∧
    ParseFloat "4.3199" = (⟨0x40114793dd97f62b⟩, none) ∧
    getExchangeRate (withDecoders testLib) (recordingEnv sampleNow (answering 200 bodyExample))
        "EURPLN" sampleKey []
      = (({ Timestamp := ⟨63839707200, 0, 0⟩, CurrencyPair := "EURPLN",
            BuyRate := ⟨0x4011346dc5d63886⟩, SellRate := ⟨0x40114793dd97f62b⟩ }, none),
         [signedRequest "EURPLN" "wUOo" "2024-01-01T12:00:05Z"]) :=
  ⟨rfl, by decide, by decide, by decide, by decide,
   (getExchangeRate_parses (withDecoders testLib)
      (recordingEnv sampleNow (answering 200 bodyExample)) "EURPLN" sampleKey []
      [signedRequest "EURPLN" "wUOo" "2024-01-01T12:00:05Z"] "wUOo"
      { StatusCode := 200, Body := { data := bytesOf bodyExample, err := none } }
      true "2024-01-01T12:00:00Z" "EURPLN" "4.3012" "4.3199"
      (by decide) (by decide) rfl (by decide) rfl (by decide) (by decide) (by decide)
      (by decide) (by decide)).trans (by decide)⟩

set_option maxRecDepth 1000000 in
set_option exponentiation.threshold 2000 in
/-- C5 as stated fails at the buy rate "1e400", and at the timestamp
"1990-12-31T23:59:60Z": each body has the expected shape, its `ts` conforms to
RFC3339 and both rates are decimal numbers, yet `getExchangeRate` returns an
error and the zero record, the decoder's for the rate out of the range of
`float64` and the time parser's for the leap second. -/
theorem getExchangeRate_parses_counterexample :
    (parseJSON ((bytesOf bodyHugeRate).map UInt8.toNat)
        = some (expectedShape true "2024-01-01T12:00:00Z" "EURPLN" "1e400" "4.3199") ∧
      conformsRFC3339 "2024-01-01T12:00:00Z" = true ∧
      isJSONNumber "1e400" = true ∧ isJSONNumber "4.3199" = true ∧
      (getExchangeRate (withDecoders testLib)
          (recordingEnv sampleNow (answering 200 bodyHugeRate)) "EURPLN" sampleKey []).1
        = (CurrencyRate.zero, (jsonUnmarshal (bytesOf bodyHugeRate)).2) ∧
      (jsonUnmarshal (bytesOf bodyHugeRate)).2 ≠ none) ∧
    (parseJSON ((bytesOf bodyLeapSecond).map UInt8.toNat)
        = some (expectedShape true "1990-12-31T23:59:60Z" "EURPLN" "4.3012" "4.3199") ∧
      conformsRFC3339 "1990-12-31T23:59:60Z" = true ∧
      isJSONNumber "4.3012" = true ∧ isJSONNumber "4.3199" = true ∧
      (getExchangeRate (withDecoders testLib)
          (recordingEnv sampleNow (answering 200 bodyLeapSecond)) "EURPLN" sampleKey []).1
        = (CurrencyRate.zero, (timeParse RFC3339 "1990-12-31T23:59:60Z").2) ∧
      (timeParse RFC3339 "1990-12-31T23:59:60Z").2 ≠ none) :=
  ⟨⟨rfl, by decide, by decide, by decide, by decide, by decide⟩,
   ⟨rfl, by decide, by decide, by decide, by decide, by decide⟩⟩

/-- C6: when signing, request creation, transport and reading succeed and the
body is a JSON object whose `result` object has a `buyRate` or `sellRate`
member holding a string, other than `null`, that the float parser rejects or
that does not begin with a digit or a minus sign, the decoder reports an error
and `getExchangeRate` returns the zero `CurrencyRate` with that error (after
printing the diagnostic), never a record. -/
theorem getExchangeRate_decode_error {σ : Type} (lib : Lib) (env : Env σ) (pairName : String)
    (key : RSAPrivateKey) (w w1 : σ) (signature : String) (resp : HttpResponse)
    (ms rs : List (String × JValue)) (k s : String)
    (hsig : signRequest lib (lib.Format (lib.UTC (env.Now w).1) RFC3339) (endpoint ++ pairName)
              "" (PrivateKey.rsa key) = (signature, none))
    (hurl : lib.ParseURLError (urlBase ++ endpoint ++ pairName) = none)
    (hdo : env.Do (signedRequest pairName signature
              (lib.Format (lib.UTC (env.Now w).1) RFC3339)) (env.Now w).2 = (Except.ok resp, w1))
    (hread : resp.Body.err = none)
    (hbody : parseJSON (resp.Body.data.map UInt8.toNat) = some (JValue.object ms))
    (hres : ("result", JValue.object rs) ∈ ms)
    (hrate : (k, JValue.string s) ∈ rs) (hk : k = "buyRate" ∨ k = "sellRate")
    (hnull : s ≠ "null") (hbad : (ParseFloat s).2 ≠ none ∨ beginsNumber s = false) :
    ∃ e, (jsonUnmarshal resp.Body.data).2 = some e ∧
      getExchangeRate (withDecoders lib) env pairName key w
        = ((CurrencyRate.zero, some e), env.Println "Error unmarshalling JSON:" e w1) := by
  have herr : (jsonUnmarshal resp.Body.data).2 ≠ none := by
    simp only [jsonUnmarshal, hbody]
    exact decodeResponse_bad_rate ms rs k s hres hrate hk hnull hbad
  obtain ⟨e, he⟩ := Option.ne_none_iff_exists'.mp herr
  refine ⟨e, he, ?_⟩
  have hjson : (withDecoders lib).Unmarshal resp.Body.data
      = ((jsonUnmarshal resp.Body.data).1, some e) := Prod.ext rfl he
  exact getExchangeRate_of_decode_failure (withDecoders lib) env pairName key w w1 signature
    resp _ e hsig hurl hdo hread hjson

set_option maxRecDepth 1000000 in
/-- C6, at the body whose buy rate is "abc". -/
theorem getExchangeRate_decode_error_witness :
    parseJSON ((bytesOf bodyBadRate).map UInt8.toNat)
      = some (expectedShape true "2024-01-01T12:00:00Z" "EURPLN" "abc" "4.3199") ∧
    (ParseFloat "abc").2 ≠ none ∧ beginsNumber "abc" = false ∧
    ∃ e, (jsonUnmarshal (bytesOf bodyBadRate)).2 = some e ∧
      getExchangeRate (withDecoders testLib) (recordingEnv sampleNow (answering 200 bodyBadRate))
          "EURPLN" sampleKey []
        = ((CurrencyRate.zero, some e), [signedRequest "EURPLN" "wUOo" "2024-01-01T12:00:05Z"]) :=
  ⟨rfl, by decide, by decide,
   getExchangeRate_decode_error (withDecoders testLib)
     (recordingEnv sampleNow (answering 200 bodyBadRate)) "EURPLN" sampleKey []
     [signedRequest "EURPLN" "wUOo" "2024-01-01T12:00:05Z"] "wUOo"
     { StatusCode := 200, Body := { data := bytesOf bodyBadRate, err := none } }
     [("success", JValue.bool true),
      ("result", JValue.object
        [("ts", JValue.string "2024-01-01T12:00:00Z"), ("currencyPair", JValue.string "EURPLN"),
         ("buyRate", JValue.string "abc"), ("sellRate", JValue.string "4.3199")])]
     [("ts", JValue.string "2024-01-01T12:00:00Z"), ("currencyPair", JValue.string "EURPLN"),
      ("buyRate", JValue.string "abc"), ("sellRate", JValue.string "4.3199")]
     "buyRate" "abc"
     (by decide) (by decide) rfl (by decide) rfl
     (List.mem_cons_of_mem _ (List.mem_cons_self _ _))
     (List.mem_cons_of_mem _ (List.mem_cons_of_mem _ (List.mem_cons_self _ _)))
     (Or.inl rfl) (by decide) (Or.inl (by decide))⟩

set_option maxRecDepth 1000000 in
/-- C6 as stated fails at the buy rate "null": the text is not a number, yet
`getExchangeRate` returns a record with no error, its buy rate 0. -/
theorem getExchangeRate_decode_error_counterexample :
    parseJSON ((bytesOf bodyNullRate).map UInt8.toNat)
      = some (expectedShape true "2024-01-01T12:00:00Z" "EURPLN" "null" "4.3199") ∧
    isJSONNumber "null" = false ∧ (ParseFloat "null").2 ≠ none ∧
    (getExchangeRate (withDecoders testLib) (recordingEnv sampleNow (answering 200 bodyNullRate))
        "EURPLN" sampleKey []).1
      = ({ Timestamp := ⟨63839707200, 0, 0⟩, CurrencyPair := "EURPLN",
           BuyRate := ⟨0⟩, SellRate := ⟨0x40114793dd97f62b⟩ }, none) :=
  ⟨rfl, by decide, by decide, by decide⟩

/-- C7: when signing, request creation, transport, reading and decoding
succeed and the decoded `ts` does not have the form the RFC3339 time parser
accepts (`timeShape`; these are exactly the texts the parser rejects, the
empty text of a missing `ts` among them), `getExchangeRate` returns the zero
`CurrencyRate` with the parser's error (after printing the diagnostic),
whatever the rates. -/
theorem getExchangeRate_time_error {σ : Type} (lib : Lib) (env : Env σ) (pairName : String)
    (key : RSAPrivateKey) (w w1 : σ) (signature : String) (resp : HttpResponse)
    (hsig : signRequest lib (lib.Format (lib.UTC (env.Now w).1) RFC3339) (endpoint ++ pairName)
              "" (PrivateKey.rsa key) = (signature, none))
    (hurl : lib.ParseURLError (urlBase ++ endpoint ++ pairName) = none)
    (hdo : env.Do (signedRequest pairName signature
              (lib.Format (lib.UTC (env.Now w).1) RFC3339)) (env.Now w).2 = (Except.ok resp, w1))
    (hread : resp.Body.err = none)
    (hjson : (jsonUnmarshal resp.Body.data).2 = none)
    (hts : timeShape (jsonUnmarshal resp.Body.data).1.Result.Ts = false) :
    ∃ e, (timeParse RFC3339 (jsonUnmarshal resp.Body.data).1.Result.Ts).2 = some e ∧
      getExchangeRate (withDecoders lib) env pairName key w
        = ((CurrencyRate.zero, some e), env.Println "Error parsing timestamp:" e w1) := by
  obtain ⟨e, he⟩ := Option.ne_none_iff_exists'.mp (timeParse_rejects _ hts)
  refine ⟨e, he, ?_⟩
  have hj : (withDecoders lib).Unmarshal resp.Body.data
      = ((jsonUnmarshal resp.Body.data).1, none) := Prod.ext rfl hjson
  have ht : (withDecoders lib).Parse RFC3339 (jsonUnmarshal resp.Body.data).1.Result.Ts
      = ((timeParse RFC3339 (jsonUnmarshal resp.Body.data).1.Result.Ts).1, some e) :=
    Prod.ext rfl he
  exact getExchangeRate_of_time_failure (withDecoders lib) env pairName key w w1 signature
    resp _ _ e hsig hurl hdo hread hj ht

set_option maxRecDepth 1000000 in
/-- C7, at the body whose timestamp is "not-a-date" and whose rates are valid,
and at the body without a timestamp. -/
theorem getExchangeRate_time_error_witness :
    (jsonUnmarshal (bytesOf bodyBadTime)).1.Result.Ts = "not-a-date" ∧
    conformsRFC3339 "not-a-date" = false ∧
    (∃ e, (timeParse RFC3339 (jsonUnmarshal (bytesOf bodyBadTime)).1.Result.Ts).2 = some e ∧
      getExchangeRate (withDecoders testLib) (recordingEnv sampleNow (answering 200 bodyBadTime))
          "EURPLN" sampleKey []
        = ((CurrencyRate.zero, some e),
           [signedRequest "EURPLN" "wUOo" "2024-01-01T12:00:05Z"])) ∧
    (jsonUnmarshal (bytesOf bodyNoTime)).1.Result.Ts = "" ∧
    (∃ e, (timeParse RFC3339 (jsonUnmarshal (bytesOf bodyNoTime)).1.Result.Ts).2 = some e ∧
      getExchangeRate (withDecoders testLib) (recordingEnv sampleNow (answering 200 bodyNoTime))
          "EURPLN" sampleKey []
        = ((CurrencyRate.zero, some e),
           [signedRequest "EURPLN" "wUOo" "2024-01-01T12:00:05Z"])) :=
  ⟨by decide, by decide,
   getExchangeRate_time_error (withDecoders testLib)
     (recordingEnv sampleNow (answering 200 bodyBadTime)) "EURPLN" sampleKey []
     [signedRequest "EURPLN" "wUOo" "2024-01-01T12:00:05Z"] "wUOo"
     { StatusCode := 200, Body := { data := bytesOf bodyBadTime, err := none } }
     (by decide) (by decide) rfl (by decide) (by decide) (by decide),
   by decide,
   getExchangeRate_time_error (withDecoders testLib)
     (recordingEnv sampleNow (answering 200 bodyNoTime)) "EURPLN" sampleKey []
     [signedRequest "EURPLN" "wUOo" "2024-01-01T12:00:05Z"] "wUOo"
     { StatusCode := 200, Body := { data := bytesOf bodyNoTime, err := none } }
     (by decide) (by decide) rfl (by decide) (by decide) (by decide)⟩

set_option maxRecDepth 1000000 in
/-- C7 as stated fails at the timestamp "2024-01-01T1:00:00Z": it does not
conform to RFC3339 (the hour has one digit), yet it has the form the time
parser accepts and `getExchangeRate` returns a record with no error. -/
theorem getExchangeRate_time_error_counterexample :
    parseJSON ((bytesOf bodyShortHour).map UInt8.toNat)
      = some (expectedShape true "2024-01-01T1:00:00Z" "EURPLN" "4.3012" "4.3199") ∧
    conformsRFC3339 "2024-01-01T1:00:00Z" = false ∧
    timeShape "2024-01-01T1:00:00Z" = true ∧
    (jsonUnmarshal (bytesOf bodyShortHour)).2 = none ∧
    (getExchangeRate (withDecoders testLib) (recordingEnv sampleNow (answering 200 bodyShortHour))
        "EURPLN" sampleKey []).1
      = ({ Timestamp := ⟨63839667600, 0, 0⟩, CurrencyPair := "EURPLN",
           BuyRate := ⟨0x4011346dc5d63886⟩, SellRate := ⟨0x40114793dd97f62b⟩ }, none) :=
  ⟨rfl, by decide, by decide, by decide, by decide⟩

end Walutomat
